import Mathlib

/-!
Verification development for the pigeon-pool backend's scheduled-job
coordinator and schedule/score reconciliation engine
(`backend/utils/scheduler.py`, `backend/utils/score_sync.py`,
`backend/utils/scheduled_jobs.py`).

Timestamps are modelled as whole seconds since the Unix epoch (`Int`).
Python's floor division/modulo on integers coincides with the `/` and `%`
of `Int` (Euclidean) for the positive divisors used here (86400, 7, 400,
...), so we use those throughout.
-/

namespace PigeonPool

/-! ## Calendar and America/Los_Angeles timezone model

Modelled from the environment: the code relies on
`zoneinfo.ZoneInfo("America/Los_Angeles")`.  Under the rules in force since
2007, Pacific Time is UTC-8 (PST) except between the second Sunday of March
at 02:00 local (10:00 UTC) and the first Sunday of November at 02:00 local
(09:00 UTC), when it is UTC-7 (PDT).  The model below implements exactly
those rules and is therefore faithful for instants from 2007 onwards
(`inEra` below); `aware - aware` comparisons, `astimezone`, `weekday`,
`date` and wall-clock arithmetic of Python `datetime` are mirrored on
integer seconds.
-/

/-- Day index (days since 1970-01-01) of an instant/wall time in seconds. -/
def dayOfSec (t : Int) : Int := t / 86400

/-- Seconds elapsed since local midnight of a wall time in seconds. -/
def secOfDay (t : Int) : Int := t % 86400

/-- Day of week with Monday = 0 .. Sunday = 6 (as Python `date.weekday()`);
day 0 = 1970-01-01 was a Thursday (= 3). -/
def weekdayMon0 (d : Int) : Int := (d + 3) % 7

/-- Day index of January 1 of proleptic-Gregorian year `y`
(Hinnant's civil-from-days algorithm specialised to Jan 1). -/
def jan1 (y : Int) : Int :=
  146097 * ((y - 1) / 400) +
    (365 * ((y - 1) % 400) + ((y - 1) % 400) / 4
      - ((y - 1) % 400) / 100 + 306) - 719468

/-- Day index of March 1 of year `y`. -/
def march1 (y : Int) : Int :=
  146097 * (y / 400) +
    (365 * (y % 400) + (y % 400) / 4 - (y % 400) / 100) - 719468

/-- The first Sunday on or after day `d`. -/
def sundayOnOrAfter (d : Int) : Int := d + (6 - weekdayMon0 d) % 7

/-- Second Sunday of March of year `y` (US DST start day since 2007). -/
def dstStartDay (y : Int) : Int := sundayOnOrAfter (march1 y + 7)

/-- First Sunday of November of year `y` (US DST end day since 2007);
March 1 + 245 days = November 1 (no leap day in between). -/
def dstEndDay (y : Int) : Int := sundayOnOrAfter (march1 y + 245)

/-- Bounded linear search for the year containing a day index, starting at
year `y` with `fuel` steps. -/
def yearSearch (y : Int) : Nat → Int → Int
  | 0, _ => y
  | fuel + 1, d => if d < jan1 (y + 1) then y else yearSearch (y + 1) fuel d

/-- Year containing day index `d` (valid for days in years 2006..2905). -/
def yearOfDay (d : Int) : Int := yearSearch 2006 900 d

/-- UTC instant at which DST starts in year `y` (2nd Sunday of March, 10:00 UTC). -/
def dstStartUtc (y : Int) : Int := dstStartDay y * 86400 + 36000

/-- UTC instant at which DST ends in year `y` (1st Sunday of November, 09:00 UTC). -/
def dstEndUtc (y : Int) : Int := dstEndDay y * 86400 + 32400

/-- Pacific wall time at which DST starts in year `y` (02:00 local). -/
def dstStartWall (y : Int) : Int := dstStartDay y * 86400 + 7200

/-- Pacific wall time at which DST ends in year `y` (02:00 local, first
occurrence; `fold=0` resolution of the ambiguous hour). -/
def dstEndWall (y : Int) : Int := dstEndDay y * 86400 + 7200

/-- UTC offset (in seconds) of America/Los_Angeles at a UTC instant `t`. -/
def ptOffsetUtc (t : Int) : Int :=
  if dstStartUtc (yearOfDay (dayOfSec t)) ≤ t ∧ t < dstEndUtc (yearOfDay (dayOfSec t)) then
    -25200
  else
    -28800

/-- UTC offset (in seconds) attributed by `ZoneInfo` to a Pacific wall time
`w` with `fold = 0` (Python's default for `replace`/arithmetic results). -/
def ptOffsetWall (w : Int) : Int :=
  if dstStartWall (yearOfDay (dayOfSec w)) ≤ w ∧ w < dstEndWall (yearOfDay (dayOfSec w)) then
    -25200
  else
    -28800

/-- `dt.astimezone(PT)` on seconds: Pacific wall time of a UTC instant. -/
def toWallPT (t : Int) : Int := t + ptOffsetUtc t

/-- `.astimezone(timezone.utc)` on an aware Pacific wall time (fold 0). -/
def wallToUtcPT (w : Int) : Int := w - ptOffsetWall w

/-- Local (Pacific) calendar-day index of a UTC instant, as
`t.astimezone(PST).date()`. -/
def localDayPT (t : Int) : Int := dayOfSec (toWallPT t)

/-- Local hour of a wall time, as `datetime.hour`. -/
def localHourOfWall (w : Int) : Int := secOfDay w / 3600

/-- The era in which the modelled DST rules match the IANA
America/Los_Angeles data (post-2007 rules; upper bound keeps the bounded
year search valid). -/
def inEra (t : Int) : Prop := jan1 2007 * 86400 ≤ t ∧ t < jan1 2799 * 86400

instance (t : Int) : Decidable (inEra t) := by
  unfold inEra; exact inferInstance

/-! ## `_calc_lock_at_pacific` (`backend/utils/score_sync.py`)

```python
def _calc_lock_at_pacific(kickoffs_utc: list[datetime]) -> datetime:
    earliest_pt = min(kickoffs_utc).astimezone(PT)
    # weekday(): Mon=0 .. Sun=6 ; Wed=2
    days_since_wed = (earliest_pt.weekday() - 2) % 7
    if days_since_wed == 0:
        # If earliest is on Wednesday, lock is the previous Wednesday
        days_since_wed = 7
    lock_wed_pt = (earliest_pt - timedelta(days=days_since_wed)).replace(
        hour=23, minute=59, second=59, microsecond=0
    )
    return lock_wed_pt.astimezone(timezone.utc)
```

`min` on aware datetimes compares instants; subtracting a whole number of
days and `.replace(hour=23, minute=59, second=59, microsecond=0)` act on
the wall clock, yielding wall time `(day - days_since_wed) * 86400 + 86399`.
The empty-list case raises in Python; the model returns 0 there and every
theorem assumes a non-empty list.
-/

/-- `min(kickoffs_utc)` for the non-empty list `k :: r`. -/
def minList (k : Int) (r : List Int) : Int := r.foldl min k

def calc_lock_at_pacific (kickoffs_utc : List Int) : Int :=
  match kickoffs_utc with
  | [] => 0
  | k :: r =>
    let earliest_pt := toWallPT (minList k r)
    let dsw0 := (weekdayMon0 (dayOfSec earliest_pt) - 2) % 7
    let days_since_wed := if dsw0 = 0 then 7 else dsw0
    let lock_wed_pt := (dayOfSec earliest_pt - days_since_wed) * 86400 + 86399
    wallToUtcPT lock_wed_pt

/-! Sanity checks of the model on known dates (removed before the theorems
matter; they compile-time-check the embedding).
2025-09-05 00:20:00 UTC (Thu 2025-09-04 17:20 PDT) is instant 1757031600;
the lock must be Wed 2025-09-03 23:59:59 PDT = 2025-09-04 06:59:59 UTC
= 1756969199. -/

example : calc_lock_at_pacific [1757031600] = 1756969199 := by decide

example : weekdayMon0 (dayOfSec (toWallPT 1757031600)) = 3 := by decide

/-! ### Calendar lemmas -/

theorem jan1_succ_sub (y : Int) :
    365 ≤ jan1 (y + 1) - jan1 y ∧ jan1 (y + 1) - jan1 y ≤ 366 := by
  unfold jan1; omega

theorem march1_sub_jan1 (y : Int) :
    59 ≤ march1 y - jan1 y ∧ march1 y - jan1 y ≤ 60 := by
  unfold jan1 march1; omega

theorem jan1_mono {y y' : Int} (h : y ≤ y') : jan1 y ≤ jan1 y' := by
  refine Int.le_induction (m := y) (P := fun z => jan1 y ≤ jan1 z) (le_refl _) ?_ y' h
  intro n _ ih
  have := jan1_succ_sub n
  omega

theorem jan1_succ_le {y y' : Int} (h : y < y') : jan1 (y + 1) ≤ jan1 y' :=
  jan1_mono h

theorem sundayOnOrAfter_bounds (d : Int) :
    d ≤ sundayOnOrAfter d ∧ sundayOnOrAfter d ≤ d + 6 := by
  unfold sundayOnOrAfter weekdayMon0; omega

theorem sundayOnOrAfter_weekday (d : Int) :
    weekdayMon0 (sundayOnOrAfter d) = 6 := by
  unfold sundayOnOrAfter weekdayMon0; omega

theorem dstStartDay_bounds (y : Int) :
    jan1 y + 66 ≤ dstStartDay y ∧ dstStartDay y ≤ jan1 y + 73 := by
  have h1 := march1_sub_jan1 y
  have h2 := sundayOnOrAfter_bounds (march1 y + 7)
  unfold dstStartDay; omega

theorem dstEndDay_bounds (y : Int) :
    jan1 y + 304 ≤ dstEndDay y ∧ dstEndDay y ≤ jan1 y + 311 := by
  have h1 := march1_sub_jan1 y
  have h2 := sundayOnOrAfter_bounds (march1 y + 245)
  unfold dstEndDay; omega

theorem dstStartDay_weekday (y : Int) : weekdayMon0 (dstStartDay y) = 6 :=
  sundayOnOrAfter_weekday _

theorem dstEndDay_weekday (y : Int) : weekdayMon0 (dstEndDay y) = 6 :=
  sundayOnOrAfter_weekday _

theorem yearSearch_spec :
    ∀ (fuel : Nat) (y d : Int), jan1 y ≤ d → d < jan1 (y + fuel) →
      jan1 (yearSearch y fuel d) ≤ d ∧ d < jan1 (yearSearch y fuel d + 1) ∧
        y ≤ yearSearch y fuel d ∧ yearSearch y fuel d < y + fuel := by
  intro fuel
  induction fuel with
  | zero =>
    intro y d h1 h2
    simp only [Nat.cast_zero, add_zero] at h2
    omega
  | succ n ih =>
    intro y d h1 h2
    unfold yearSearch
    by_cases hc : d < jan1 (y + 1)
    · rw [if_pos hc]
      refine ⟨h1, hc, le_refl _, ?_⟩
      have : (0 : Int) < (n : Int) + 1 := by positivity
      push_cast
      omega
    · rw [if_neg hc]
      have h1' : jan1 (y + 1) ≤ d := by omega
      have h2' : d < jan1 (y + 1 + n) := by
        have e : y + ((n + 1 : Nat) : Int) = y + 1 + (n : Int) := by push_cast; ring
        rwa [e] at h2
      have := ih (y + 1) d h1' h2'
      push_cast
      omega

theorem yearOfDay_bracket {d : Int} (h1 : jan1 2006 ≤ d) (h2 : d < jan1 2906) :
    jan1 (yearOfDay d) ≤ d ∧ d < jan1 (yearOfDay d + 1) ∧
      2006 ≤ yearOfDay d ∧ yearOfDay d < 2906 := by
  have h2' : d < jan1 (2006 + (900 : Nat)) := by norm_num; exact h2
  have := yearSearch_spec 900 2006 d h1 h2'
  unfold yearOfDay
  constructor
  · exact this.1
  constructor
  · exact this.2.1
  constructor
  · exact this.2.2.1
  · have := this.2.2.2; push_cast at this; omega

theorem yearOfDay_eq {d y : Int} (hy1 : jan1 y ≤ d) (hy2 : d < jan1 (y + 1))
    (hlo : 2006 ≤ y) (hhi : y < 2906) : yearOfDay d = y := by
  have hb1 : jan1 2006 ≤ d := le_trans (jan1_mono hlo) hy1
  have hb2 : d < jan1 2906 := lt_of_lt_of_le hy2 (jan1_mono (by omega))
  obtain ⟨g1, g2, g3, g4⟩ := yearOfDay_bracket hb1 hb2
  by_contra hne
  rcases lt_or_gt_of_ne hne with hlt | hgt
  · have : jan1 (yearOfDay d + 1) ≤ jan1 y := jan1_mono (by omega)
    omega
  · have : jan1 (y + 1) ≤ jan1 (yearOfDay d) := jan1_mono (by omega)
    omega

/-! ### Minimum of a non-empty list (`min(kickoffs_utc)`) -/

def earliestOf : List Int → Int
  | [] => 0
  | k :: r => minList k r

theorem minList_le (k : Int) (r : List Int) : ∀ x ∈ k :: r, minList k r ≤ x := by
  induction r generalizing k with
  | nil =>
    intro x hx
    simp only [List.mem_singleton] at hx
    simp [minList, hx]
  | cons a t ih =>
    intro x hx
    have step : minList k (a :: t) = minList (min k a) t := rfl
    have hhead := ih (min k a) (min k a) (List.mem_cons_self _ _)
    rw [step]
    rcases List.mem_cons.mp hx with hxk | hxat
    · rw [hxk]; exact le_trans hhead (min_le_left _ _)
    · rcases List.mem_cons.mp hxat with hxa | hxt
      · rw [hxa]; exact le_trans hhead (min_le_right _ _)
      · exact ih (min k a) x (List.mem_cons_of_mem _ hxt)

theorem minList_mem (k : Int) (r : List Int) : minList k r ∈ k :: r := by
  induction r generalizing k with
  | nil => simp [minList]
  | cons a t ih =>
    have step : minList k (a :: t) = minList (min k a) t := rfl
    rw [step]
    rcases List.mem_cons.mp (ih (min k a)) with hh | ht
    · rcases le_total k a with hka | hak
      · rw [hh, min_eq_left hka]; exact List.mem_cons_self _ _
      · rw [hh, min_eq_right hak]
        exact List.mem_cons_of_mem _ (List.mem_cons_self _ _)
    · exact List.mem_cons_of_mem _ (List.mem_cons_of_mem _ ht)

/-! ### Offset case lemmas -/

theorem ptOffsetUtc_cases (t : Int) :
    ptOffsetUtc t = -25200 ∨ ptOffsetUtc t = -28800 := by
  unfold ptOffsetUtc; split <;> simp

theorem ptOffsetWall_cases (w : Int) :
    ptOffsetWall w = -25200 ∨ ptOffsetWall w = -28800 := by
  unfold ptOffsetWall; split <;> simp

theorem ptOffsetUtc_dst_cond {t : Int} (h : ptOffsetUtc t = -25200) :
    dstStartUtc (yearOfDay (dayOfSec t)) ≤ t ∧
      t < dstEndUtc (yearOfDay (dayOfSec t)) := by
  by_contra hc
  unfold ptOffsetUtc at h
  rw [if_neg hc] at h
  omega

/-- Core inequality for C2: the computed lock wall time, converted back to
UTC, is strictly earlier than the earliest kickoff `u`, for any step-back
`dsw ∈ [1, 7]` that lands on a Wednesday. -/
theorem lock_lt_earliest (u dsw : Int) (hu : inEra u)
    (hd1 : 1 ≤ dsw) (hd7 : dsw ≤ 7)
    (hwed : weekdayMon0 (dayOfSec (toWallPT u) - dsw) = 2) :
    wallToUtcPT ((dayOfSec (toWallPT u) - dsw) * 86400 + 86399) < u := by
  have hwdef : toWallPT u = u + ptOffsetUtc u := rfl
  set w := toWallPT u with hwset
  set W := dayOfSec w - dsw with hWset
  set lockWall := W * 86400 + 86399 with hlwset
  have hdivw : 86400 * dayOfSec w ≤ w ∧ w < 86400 * dayOfSec w + 86400 := by
    unfold dayOfSec; omega
  have hdivu : 86400 * dayOfSec u ≤ u ∧ u < 86400 * dayOfSec u + 86400 := by
    unfold dayOfSec; omega
  have hlt : lockWall < w := by omega
  have hou := ptOffsetUtc_cases u
  have how := ptOffsetWall_cases lockWall
  show lockWall - ptOffsetWall lockWall < u
  by_cases hnear : w - lockWall ≤ 3600
  · -- earliest kickoff within an hour after the lock wall time
    have hdsw1 : dsw = 1 := by omega
    rcases hou with hu7 | hu8
    · rcases how with hw7 | hw8
      · omega
      · -- combination PDT-at-kickoff / PST-at-lock is impossible so close
        -- to the lock: DST transitions happen on Sunday wall 02:00, but
        -- the window [Wed 23:59:59, Thu 00:59:59] contains no transition.
        exfalso
        have hcond := ptOffsetUtc_dst_cond hu7
        set yu := yearOfDay (dayOfSec u) with hyuset
        have hday1 : jan1 2007 ≤ dayOfSec u ∧ dayOfSec u < jan1 2799 := by
          unfold inEra at hu
          unfold dayOfSec
          omega
        have h2006 : jan1 2006 ≤ dayOfSec u :=
          le_trans (jan1_mono (by norm_num)) hday1.1
        have h2906 : dayOfSec u < jan1 2906 :=
          lt_of_lt_of_le hday1.2 (jan1_mono (by norm_num))
        obtain ⟨hb1, hb2, hb3, hb4⟩ := yearOfDay_bracket h2006 h2906
        have hds := dstStartDay_bounds yu
        have hde := dstEndDay_bounds yu
        have hyl := jan1_succ_sub yu
        have hsw := dstStartDay_weekday yu
        have hew := dstEndDay_weekday yu
        unfold weekdayMon0 at hsw hew hwed
        unfold dstStartUtc dstEndUtc at hcond
        -- u is in [start day 10:00 UTC, end day 09:00 UTC)
        have hud : dstStartDay yu ≤ dayOfSec u ∧ dayOfSec u ≤ dstEndDay yu := by
          unfold dayOfSec
          omega
        have hw25 : w = u - 25200 := by rw [hwdef, hu7]; ring
        -- relate day of w and day of u
        have hdw : dayOfSec u - 1 ≤ dayOfSec w ∧ dayOfSec w ≤ dayOfSec u := by
          unfold dayOfSec
          omega
        -- the lock Wednesday is at least 3 days after the (Sunday) DST start
        have hWlow : dstStartDay yu + 3 ≤ W := by omega
        have hWhigh : W ≤ dstEndDay yu - 1 := by omega
        -- hence lockWall is inside the wall-clock DST interval of year yu
        have hdl : dayOfSec lockWall = W := by
          unfold dayOfSec
          omega
        have hyW : yearOfDay W = yu := by
          apply yearOfDay_eq
          · omega
          · omega
          · omega
          · omega
        unfold ptOffsetWall at hw8
        rw [hdl, hyW] at hw8
        rw [if_pos ⟨by unfold dstStartWall; omega, by unfold dstEndWall; omega⟩] at hw8
        omega
    · rcases how with hw7 | hw8 <;> omega
  · rcases hou with hu7 | hu8 <;> rcases how with hw7 | hw8 <;> omega

/-- C2: for a non-empty list of UTC kickoff instants (within the modelled
timezone era), `_calc_lock_at_pacific` returns the UTC instant of 23:59:59
America/Los_Angeles wall time on the Wednesday strictly preceding the
earliest kickoff's local day (the unique Wednesday `W` with
`day - 7 ≤ W < day`); when the earliest kickoff falls on a local Wednesday
the result steps back a full seven days; and the returned lock instant is
strictly earlier than the earliest kickoff. -/
theorem C2_lock_time_derivation (ks : List Int) (hne : ks ≠ [])
    (hera : ∀ k ∈ ks, inEra k) :
    ∃ W : Int,
      weekdayMon0 W = 2 ∧
      localDayPT (earliestOf ks) - 7 ≤ W ∧
      W < localDayPT (earliestOf ks) ∧
      (weekdayMon0 (localDayPT (earliestOf ks)) = 2 →
        W = localDayPT (earliestOf ks) - 7) ∧
      calc_lock_at_pacific ks = wallToUtcPT (W * 86400 + 86399) ∧
      calc_lock_at_pacific ks < earliestOf ks := by
  cases ks with
  | nil => exact absurd rfl hne
  | cons k r =>
    have hE : earliestOf (k :: r) = minList k r := rfl
    have hu : inEra (minList k r) := hera _ (minList_mem k r)
    rw [hE]
    unfold localDayPT
    set u := minList k r with huset
    set wd := weekdayMon0 (dayOfSec (toWallPT u)) with hwddef
    set dsw0 := (wd - 2) % 7 with hdsw0def
    set dsw := if dsw0 = 0 then 7 else dsw0 with hdswdef
    have hwdb : 0 ≤ wd ∧ wd < 7 := by
      rw [hwddef]; unfold weekdayMon0; omega
    have hdb : (dsw0 = 0 ∧ dsw = 7) ∨ (dsw0 ≠ 0 ∧ dsw = dsw0) := by
      rw [hdswdef]
      by_cases h0 : dsw0 = 0
      · rw [if_pos h0]; exact Or.inl ⟨h0, rfl⟩
      · rw [if_neg h0]; exact Or.inr ⟨h0, rfl⟩
    have hd0b : 0 ≤ dsw0 ∧ dsw0 < 7 := by rw [hdsw0def]; omega
    have hd : 1 ≤ dsw ∧ dsw ≤ 7 := by omega
    have hwedW : weekdayMon0 (dayOfSec (toWallPT u) - dsw) = 2 := by
      unfold weekdayMon0
      unfold weekdayMon0 at hwddef
      omega
    refine ⟨dayOfSec (toWallPT u) - dsw, hwedW, by omega, by omega, ?_, ?_, ?_⟩
    · intro hW2
      omega
    · rfl
    · exact lock_lt_earliest u dsw hu hd.1 hd.2 hwedW

/-- Witness for C2 at the 2025 NFL week-1 opener
(2025-09-05 00:20:00 UTC = instant 1757031600). -/
theorem C2_lock_time_derivation_witness :
    ([1757031600] : List Int) ≠ [] ∧
    (∀ k ∈ ([1757031600] : List Int), inEra k) ∧
    (∃ W : Int,
      weekdayMon0 W = 2 ∧
      localDayPT (earliestOf [1757031600]) - 7 ≤ W ∧
      W < localDayPT (earliestOf [1757031600]) ∧
      (weekdayMon0 (localDayPT (earliestOf [1757031600])) = 2 →
        W = localDayPT (earliestOf [1757031600]) - 7) ∧
      calc_lock_at_pacific [1757031600] = wallToUtcPT (W * 86400 + 86399) ∧
      calc_lock_at_pacific [1757031600] < earliestOf [1757031600]) :=
  ⟨by decide, by decide, C2_lock_time_derivation _ (by decide) (by decide)⟩

/-! ## Reconciliation engine (`backend/utils/score_sync.py`)

The `games`/`weeks`/`teams` tables are modelled as lists of rows; SQL
`UPDATE ... WHERE c` is a `map` guarded by `c` together with a `countP c`
rowcount, and `INSERT ... ON CONFLICT DO UPDATE` updates the conflicting
row (PostgreSQL reports rowcount 1 in both branches).  SQL
`IS DISTINCT FROM` is null-safe inequality, i.e. plain `≠` on `Option`.
Feed scores arrive as strings and pass through `int(...)`; they are
modelled post-parse as `Option Int`.  `now()` is passed explicitly and
lands in `updated_at`. -/

structure Game where
  week_number : Int
  home_abbr : String
  away_abbr : String
  espn_event_id : Option Int
  kickoff_at : Int
  status : String
  home_score : Option Int
  away_score : Option Int
  updated_at : Int
deriving DecidableEq

/-- One feed event, after parsing (`ev["id"]`, `_parse_event_kickoff`,
`_parse_team_abbrs_and_names`, `ev["status"]["type"]["state"]`, scores). -/
structure Event where
  id : Int
  date : Int
  home_abbr : String
  home_name : String
  away_abbr : String
  away_name : String
  state : String
  home_score : Option Int
  away_score : Option Int
deriving DecidableEq

/-- `_map_scores_and_status`: map the feed state to the 3-state model and
extract the (already parsed) scores. -/
def _map_scores_and_status (ev : Event) : String × Option Int × Option Int :=
  let status :=
    if ev.state = "pre" then "scheduled"
    else if ev.state = "post" then "final"
    else "in_progress"
  (status, ev.home_score, ev.away_score)

/-- WHERE clause of `_update_scores_by_event_id`. -/
def idWriteCond (espn_event_id : Int) (home_score away_score : Option Int)
    (status : String) (g : Game) : Prop :=
  g.espn_event_id = some espn_event_id ∧
    (g.home_score ≠ home_score ∨ g.away_score ≠ away_score ∨ g.status ≠ status)

instance (e : Int) (hs aw : Option Int) (st : String) (g : Game) :
    Decidable (idWriteCond e hs aw st g) := by
  unfold idWriteCond; exact inferInstance

/-- SET clause of `_update_scores_by_event_id`. -/
def row_update_scores (now : Int) (home_score away_score : Option Int)
    (status : String) (g : Game) : Game :=
  { g with home_score := home_score, away_score := away_score,
           status := status, updated_at := now }

def _update_scores_by_event_id (now espn_event_id : Int)
    (home_score away_score : Option Int) (status : String)
    (gs : List Game) : Nat × List Game :=
  (gs.countP (fun g => decide (idWriteCond espn_event_id home_score away_score status g)),
   gs.map (fun g =>
     if idWriteCond espn_event_id home_score away_score status g then
       row_update_scores now home_score away_score status g
     else g))

/-- WHERE clause of `_update_scores_by_triplet` (note the extra
`espn_event_id IS NULL` disjunct). -/
def tripletWriteCond (week_number : Int) (home_abbr away_abbr : String)
    (home_score away_score : Option Int) (status : String) (g : Game) : Prop :=
  g.week_number = week_number ∧ g.home_abbr = home_abbr ∧ g.away_abbr = away_abbr ∧
    (g.home_score ≠ home_score ∨ g.away_score ≠ away_score ∨ g.status ≠ status ∨
      g.espn_event_id = none)

instance (w : Int) (h a : String) (hs aw : Option Int) (st : String) (g : Game) :
    Decidable (tripletWriteCond w h a hs aw st g) := by
  unfold tripletWriteCond; exact inferInstance

/-- SET clause of `_update_scores_by_triplet` (scores/status plus
`espn_event_id = COALESCE(espn_event_id, :espn_event_id)`). -/
def row_update_scores_t (now : Int) (home_score away_score : Option Int)
    (status : String) (espn_event_id : Int) (g : Game) : Game :=
  { g with home_score := home_score, away_score := away_score, status := status,
           espn_event_id := some (g.espn_event_id.getD espn_event_id),
           updated_at := now }

def _update_scores_by_triplet (now week_number : Int) (home_abbr away_abbr : String)
    (home_score away_score : Option Int) (status : String) (espn_event_id : Int)
    (gs : List Game) : Nat × List Game :=
  (gs.countP (fun g =>
     decide (tripletWriteCond week_number home_abbr away_abbr home_score away_score status g)),
   gs.map (fun g =>
     if tripletWriteCond week_number home_abbr away_abbr home_score away_score status g then
       row_update_scores_t now home_score away_score status espn_event_id g
     else g))

def kickIdCond (espn_event_id new_kickoff : Int) (g : Game) : Prop :=
  g.espn_event_id = some espn_event_id ∧ g.kickoff_at ≠ new_kickoff

instance (e nk : Int) (g : Game) : Decidable (kickIdCond e nk g) := by
  unfold kickIdCond; exact inferInstance

def _update_kickoff_by_event_id (now espn_event_id new_kickoff : Int)
    (gs : List Game) : Nat × List Game :=
  (gs.countP (fun g => decide (kickIdCond espn_event_id new_kickoff g)),
   gs.map (fun g =>
     if kickIdCond espn_event_id new_kickoff g then
       { g with kickoff_at := new_kickoff, updated_at := now }
     else g))

def kickTripletCond (week_number : Int) (home_abbr away_abbr : String)
    (new_kickoff : Int) (g : Game) : Prop :=
  g.week_number = week_number ∧ g.home_abbr = home_abbr ∧ g.away_abbr = away_abbr ∧
    g.kickoff_at ≠ new_kickoff

instance (w : Int) (h a : String) (nk : Int) (g : Game) :
    Decidable (kickTripletCond w h a nk g) := by
  unfold kickTripletCond; exact inferInstance

def _update_kickoff_by_triplet (now week_number : Int) (home_abbr away_abbr : String)
    (new_kickoff : Int) (espn_event_id : Option Int) (gs : List Game) : Nat × List Game :=
  (gs.countP (fun g => decide (kickTripletCond week_number home_abbr away_abbr new_kickoff g)),
   gs.map (fun g =>
     if kickTripletCond week_number home_abbr away_abbr new_kickoff g then
       { g with kickoff_at := new_kickoff,
                espn_event_id := g.espn_event_id.orElse (fun _ => espn_event_id),
                updated_at := now }
     else g))

/-- Conflict target of the games upsert. -/
def tripleCond (week_number : Int) (home_abbr away_abbr : String) (g : Game) : Prop :=
  g.week_number = week_number ∧ g.home_abbr = home_abbr ∧ g.away_abbr = away_abbr

instance (w : Int) (h a : String) (g : Game) : Decidable (tripleCond w h a g) := by
  unfold tripleCond; exact inferInstance

/-- `_upsert_game_schedule_row`: insert, or on `(week_number, home_abbr,
away_abbr)` conflict refresh `kickoff_at`, backfill `espn_event_id` via
`COALESCE(games.espn_event_id, EXCLUDED.espn_event_id)` and touch
`updated_at`; PostgreSQL reports rowcount 1 either way. -/
def _upsert_game_schedule_row (now week_number kickoff_at : Int)
    (home_abbr away_abbr : String) (espn_event_id : Int)
    (gs : List Game) : Nat × List Game :=
  if gs.any (fun g => decide (tripleCond week_number home_abbr away_abbr g)) then
    (1, gs.map (fun g =>
      if tripleCond week_number home_abbr away_abbr g then
        { g with kickoff_at := kickoff_at,
                 espn_event_id := some (g.espn_event_id.getD espn_event_id),
                 updated_at := now }
      else g))
  else
    (1, gs ++ [{ week_number := week_number, home_abbr := home_abbr,
                 away_abbr := away_abbr, espn_event_id := some espn_event_id,
                 kickoff_at := kickoff_at, status := "scheduled",
                 home_score := none, away_score := none, updated_at := now }])

/-- Weeks upsert (`ON CONFLICT (week_number) DO UPDATE SET lock_at`). -/
def upsert_week (week lock_at : Int) (ws : List (Int × Int)) : List (Int × Int) :=
  if ws.any (fun p => decide (p.1 = week)) then
    ws.map (fun p => if p.1 = week then (p.1, lock_at) else p)
  else
    ws ++ [(week, lock_at)]

/-- `_upsert_team` (`ON CONFLICT (abbr) DO UPDATE SET name`). -/
def _upsert_team (abbr name : String) (ts : List (String × String)) :
    List (String × String) :=
  if ts.any (fun p => decide (p.1 = abbr)) then
    ts.map (fun p => if p.1 = abbr then (p.1, name) else p)
  else
    ts ++ [(abbr, name)]

structure Db where
  weeks : List (Int × Int)
  teams : List (String × String)
  games : List Game
deriving DecidableEq

/-- Per-event body of `sync_scores_and_status`: try by `espn_event_id`,
fall back to the `(week, home, away)` triplet when 0 rows matched. -/
def sync_event (now week : Int) (ev : Event) (gs : List Game) : Nat × List Game :=
  let m := _map_scores_and_status ev
  let r1 := _update_scores_by_event_id now ev.id m.2.1 m.2.2 m.1 gs
  if r1.1 = 0 then
    _update_scores_by_triplet now week ev.home_abbr ev.away_abbr m.2.1 m.2.2 m.1 ev.id gs
  else r1

/-- Accumulate one event's rowcount into `updated_count`. -/
def sync_step (now week : Int) (acc : Nat × List Game) (ev : Event) :
    Nat × List Game :=
  let r := sync_event now week ev acc.2
  (acc.1 + r.1, r.2)

/-- `ScoreSync.sync_scores_and_status` (a.k.a. `refresh_scores_and_status`). -/
def sync_scores_and_status (now : Int) (feed : Int → List Event) (week : Int)
    (db : Db) : Nat × Db :=
  let res := (feed week).foldl (sync_step now week) (0, db.games)
  (res.1, { db with games := res.2 })

/-- Per-event body of `refresh_kickoffs`. -/
def kick_event (now week : Int) (ev : Event) (gs : List Game) : Nat × List Game :=
  let r1 := _update_kickoff_by_event_id now ev.id ev.date gs
  if r1.1 = 0 then
    _update_kickoff_by_triplet now week ev.home_abbr ev.away_abbr ev.date (some ev.id) gs
  else r1

/-- Accumulate one event's rowcount into `updates`. -/
def kick_step (now week : Int) (acc : Nat × List Game) (ev : Event) :
    Nat × List Game :=
  let r := kick_event now week ev acc.2
  (acc.1 + r.1, r.2)

/-- `ScoreSync.refresh_kickoffs`. -/
def refresh_kickoffs (now : Int) (feed : Int → List Event) (week : Int)
    (db : Db) : Nat × Db :=
  let res := (feed week).foldl (kick_step now week) (0, db.games)
  (res.1, { db with games := res.2 })

/-- Weeks 1..18 (`range(1, 19)`). -/
def weeksList : List Int := (List.range 18).map (fun i => (i : Int) + 1)

/-- Per-event body of `load_schedule`'s inner loop: upsert both teams, then
the game row; `total_changed` increments when the upsert reports rows. -/
def load_event (now week : Int) (ev : Event) (acc : Nat × Db) : Nat × Db :=
  let ts := _upsert_team ev.away_abbr ev.away_name
    (_upsert_team ev.home_abbr ev.home_name acc.2.teams)
  let r := _upsert_game_schedule_row now week ev.date ev.home_abbr ev.away_abbr
    ev.id acc.2.games
  (if r.1 ≠ 0 then acc.1 + 1 else acc.1, { acc.2 with teams := ts, games := r.2 })

/-- One week of `load_schedule`'s outer loop: skip when the feed has no
events (`continue`), otherwise upsert the week row (recomputing `lock_at`
from the earliest kickoff) and then process every event. -/
def load_week_step (now : Int) (feed : Int → List Event) (acc : Nat × Db)
    (week : Int) : Nat × Db :=
  let evs := feed week
  if evs = [] then acc
  else
    let lock_at := calc_lock_at_pacific (evs.map (fun ev => ev.date))
    let db1 := { acc.2 with weeks := upsert_week week lock_at acc.2.weeks }
    evs.foldl (fun a ev => load_event now week ev a) (acc.1, db1)

/-- `ScoreSync.load_schedule` (the spec's `populate`): for each week 1..18
with a non-empty feed, upsert the week (recomputing `lock_at`), then the
teams and the game rows. -/
def load_schedule (now : Int) (feed : Int → List Event) (db : Db) : Nat × Db :=
  weeksList.foldl (load_week_step now feed) (0, db)

/-- `SELECT MIN(week_number) FROM weeks WHERE lock_at > now()`. -/
def minUnlockedWeek (now : Int) (ws : List (Int × Int)) : Option Int :=
  match (ws.filter (fun p => decide (p.2 > now))).map (fun p => p.1) with
  | [] => none
  | c :: cs => some (minList c cs)

/-- `run_kickoff_sync` (`backend/utils/scheduled_jobs.py`): refresh kickoff
times for the current unlocked week and, when below 18, the next week. -/
def run_kickoff_sync (now : Int) (feed : Int → List Event) (db : Db) :
    (List Int × Nat) × Db :=
  match minUnlockedWeek now db.weeks with
  | none => (([], 0), db)
  | some current_week =>
    let weeks_to_touch :=
      if current_week < 18 then [current_week, current_week + 1] else [current_week]
    let res := weeks_to_touch.foldl
      (fun (acc : Nat × Db) wk =>
        let r := refresh_kickoffs now feed wk acc.2
        (acc.1 + r.1, r.2))
      (0, db)
    ((weeks_to_touch, res.1), res.2)

/-! ## Concrete fixtures used by witnesses and counterexamples -/

/-- A stored game whose scores/status already agree with the feed but whose
external id is still null. -/
def exG : Game where
  week_number := 1
  home_abbr := "A"
  away_abbr := "B"
  espn_event_id := none
  kickoff_at := 100
  status := "final"
  home_score := some 21
  away_score := some 14
  updated_at := 0

/-- The feed event for the same game (state `post`, same scores, id 5). -/
def exEv : Event where
  id := 5
  date := 100
  home_abbr := "A"
  home_name := "Ah"
  away_abbr := "B"
  away_name := "Bh"
  state := "post"
  home_score := some 21
  away_score := some 14

/-- A one-event feed: week 1 has `exEv`, all other weeks are empty. -/
def exFeed : Int → List Event := fun w => if w = 1 then [exEv] else []

def exDb : Db where
  weeks := [(1, 50)]
  teams := []
  games := [exG]

def exDbWeek18 : Db where
  weeks := [(18, 50)]
  teams := []
  games := []

def emptyDb : Db where
  weeks := []
  teams := []
  games := []

/-- An in-progress feed event. -/
def exEvIn : Event where
  id := 6
  date := 200
  home_abbr := "C"
  home_name := "Ch"
  away_abbr := "D"
  away_name := "Dh"
  state := "in"
  home_score := some 10
  away_score := none

/-! ## C8: status mapping -/

/-- C8: `_map_scores_and_status` maps state `pre` to `scheduled`, `post` to
`final`, and any other state (e.g. `in` or an unexpected string) to
`in_progress`, while passing the parsed scores through unchanged (`some`
when present, `none` when absent). -/
theorem C8_status_mapping (ev : Event) :
    (_map_scores_and_status ev).2.1 = ev.home_score ∧
    (_map_scores_and_status ev).2.2 = ev.away_score ∧
    (ev.state = "pre" → (_map_scores_and_status ev).1 = "scheduled") ∧
    (ev.state = "post" → (_map_scores_and_status ev).1 = "final") ∧
    (ev.state ≠ "pre" → ev.state ≠ "post" →
      (_map_scores_and_status ev).1 = "in_progress") := by
  refine ⟨rfl, rfl, ?_, ?_, ?_⟩
  · intro h; simp [_map_scores_and_status, h]
  · intro h; simp [_map_scores_and_status, h]
  · intro h1 h2; simp [_map_scores_and_status, h1, h2]

/-- Witness for C8 on the concrete `in`-state event (and the two score
shapes: present and absent). -/
theorem C8_status_mapping_witness :
    (_map_scores_and_status exEvIn).1 = "in_progress" ∧
    (_map_scores_and_status exEvIn).2.1 = some 10 ∧
    (_map_scores_and_status exEvIn).2.2 = none :=
  ⟨(C8_status_mapping exEvIn).2.2.2.2 (by decide) (by decide),
   by decide, by decide⟩

/-! ## C10: `run_kickoff_sync` edge cases -/

theorem minUnlockedWeek_mem {now w : Int} {ws : List (Int × Int)}
    (h : minUnlockedWeek now ws = some w) :
    ∃ p ∈ ws, p.1 = w ∧ p.2 > now := by
  unfold minUnlockedWeek at h
  cases hm : (ws.filter (fun p => decide (p.2 > now))).map (fun p => p.1) with
  | nil => rw [hm] at h; exact absurd h (by simp)
  | cons c cs =>
    rw [hm] at h
    simp only [Option.some_inj] at h
    have hmem : minList c cs ∈ c :: cs := minList_mem c cs
    rw [← hm] at hmem
    obtain ⟨p, hp, hpw⟩ := List.mem_map.mp hmem
    refine ⟨p, (List.mem_filter.mp hp).1, by rw [← h]; exact hpw, ?_⟩
    have := (List.mem_filter.mp hp).2
    simpa using this

/-- C10: when no week is still unlocked (`lock_at > now()` holds for no
row) `run_kickoff_sync` returns `weeks=[]`, `kickoffs_updated=0` and
leaves the database untouched (no feed fetch happens); when the current
unlocked week is 18 it touches only week 18; and it never touches a week
beyond 18 when stored week numbers are at most 18. -/
theorem C10_run_kickoff_sync_edges (now : Int) (feed : Int → List Event) (db : Db) :
    ((∀ p ∈ db.weeks, p.2 ≤ now) → run_kickoff_sync now feed db = (([], 0), db)) ∧
    (minUnlockedWeek now db.weeks = some 18 →
      (run_kickoff_sync now feed db).1.1 = [18]) ∧
    ((∀ p ∈ db.weeks, p.1 ≤ 18) →
      ∀ w ∈ (run_kickoff_sync now feed db).1.1, w ≤ 18) := by
  refine ⟨?_, ?_, ?_⟩
  · intro h
    have hnone : minUnlockedWeek now db.weeks = none := by
      unfold minUnlockedWeek
      have hfil : db.weeks.filter (fun p => decide (p.2 > now)) = [] := by
        rw [List.filter_eq_nil_iff]
        intro p hp
        have := h p hp
        simp
        omega
      rw [hfil]
      rfl
    unfold run_kickoff_sync
    rw [hnone]
  · intro h
    unfold run_kickoff_sync
    rw [h]
    norm_num
  · intro h w hw
    cases hm : minUnlockedWeek now db.weeks with
    | none =>
      unfold run_kickoff_sync at hw
      rw [hm] at hw
      simp at hw
    | some cw =>
      obtain ⟨p, hp, hpw, _⟩ := minUnlockedWeek_mem hm
      have hcw : cw ≤ 18 := by
        have := h p hp
        omega
      have hres : (run_kickoff_sync now feed db).1.1 =
          if cw < 18 then [cw, cw + 1] else [cw] := by
        unfold run_kickoff_sync
        rw [hm]
      rw [hres] at hw
      by_cases hlt : cw < 18
      · rw [if_pos hlt] at hw
        simp only [List.mem_cons, List.not_mem_nil, or_false] at hw
        rcases hw with rfl | rfl <;> omega
      · rw [if_neg hlt] at hw
        simp only [List.mem_cons, List.not_mem_nil, or_false] at hw
        omega

/-- Witness for C10: all three branches at concrete inputs. -/
theorem C10_run_kickoff_sync_edges_witness :
    run_kickoff_sync 60 exFeed exDb = (([], 0), exDb) ∧
    (run_kickoff_sync 40 exFeed exDbWeek18).1.1 = [18] ∧
    (∀ w ∈ (run_kickoff_sync 40 exFeed exDb).1.1, w ≤ 18) :=
  ⟨(C10_run_kickoff_sync_edges 60 exFeed exDb).1 (by decide),
   (C10_run_kickoff_sync_edges 40 exFeed exDbWeek18).2.1 (by decide),
   (C10_run_kickoff_sync_edges 40 exFeed exDb).2.2 (by decide)⟩

/-! ## C4: `populate` call counts

The games upsert carries no change detection in its `DO UPDATE` branch, so
PostgreSQL reports every conflicting row as affected: each feed event
contributes exactly 1 to `total_changed` on *every* call. -/

theorem upsert_game_fst (now week kick : Int) (h a : String) (e : Int)
    (gs : List Game) :
    (_upsert_game_schedule_row now week kick h a e gs).1 = 1 := by
  unfold _upsert_game_schedule_row
  split <;> rfl

theorem load_event_fst (now week : Int) (ev : Event) (acc : Nat × Db) :
    (load_event now week ev acc).1 = acc.1 + 1 := by
  have h1 := upsert_game_fst now week ev.date ev.home_abbr ev.away_abbr ev.id
    acc.2.games
  simp [load_event, h1]

theorem load_fold_fst (now week : Int) (evs : List Event) :
    ∀ acc : Nat × Db,
      (evs.foldl (fun a ev => load_event now week ev a) acc).1 =
        acc.1 + evs.length := by
  induction evs with
  | nil => intro acc; simp
  | cons e t ih =>
    intro acc
    simp only [List.foldl_cons, List.length_cons]
    rw [ih (load_event now week e acc), load_event_fst]
    omega

theorem load_week_step_fst (now : Int) (feed : Int → List Event)
    (acc : Nat × Db) (week : Int) :
    (load_week_step now feed acc week).1 = acc.1 + (feed week).length := by
  unfold load_week_step
  by_cases h : feed week = []
  · rw [if_pos h, h]; simp
  · rw [if_neg h]
    exact load_fold_fst now week (feed week) _

theorem load_weeks_fold_fst (now : Int) (feed : Int → List Event)
    (ws : List Int) :
    ∀ acc : Nat × Db,
      (ws.foldl (load_week_step now feed) acc).1 =
        acc.1 + (ws.map (fun w => (feed w).length)).sum := by
  induction ws with
  | nil => intro acc; simp
  | cons w t ih =>
    intro acc
    simp only [List.foldl_cons, List.map_cons, List.sum_cons]
    rw [ih (load_week_step now feed acc w), load_week_step_fst]
    omega

/-- C4 counterexample: with a one-event feed and an initially empty
database, the *second* `populate` call reports 1 touched game row, not 0 —
the upsert's `DO UPDATE` branch has no change detection, so every
conflicting row counts again. -/
theorem C4_populate_second_call_counterexample :
    (load_schedule 8 exFeed (load_schedule 7 exFeed emptyDb).2).1 = 1 ∧
    (load_schedule 8 exFeed (load_schedule 7 exFeed emptyDb).2).1 ≠ 0 := by
  constructor <;> decide

/-- C4 (amended): every `populate` call — first or repeated, whatever the
database state — returns the total number of feed events across weeks
1..18; in particular the second call returns the same count as the first,
which is non-zero whenever the feed is non-empty, rather than 0. -/
theorem C4_populate_call_count (now now' : Int) (feed : Int → List Event)
    (db : Db) :
    (load_schedule now feed db).1 =
      (weeksList.map (fun w => (feed w).length)).sum ∧
    (load_schedule now' feed (load_schedule now feed db).2).1 =
      (load_schedule now feed db).1 := by
  have h1 := load_weeks_fold_fst now feed weeksList (0, db)
  have h2 := load_weeks_fold_fst now' feed weeksList
    (0, (load_schedule now feed db).2)
  unfold load_schedule
  unfold load_schedule at h1 h2
  constructor
  · rw [h1]; simp
  · rw [h2, h1]

/-! ## C5: `external_event_id` is backfilled once and never overwritten -/

/-- Row-by-row preservation of a non-null `espn_event_id`. -/
def espnPreserved (old new : List Game) : Prop :=
  ∀ (i : Nat) (g : Game) (v : Int), old[i]? = some g →
    g.espn_event_id = some v →
    ∃ g', new[i]? = some g' ∧ g'.espn_event_id = some v

theorem espnPreserved_rfl (gs : List Game) : espnPreserved gs gs :=
  fun _ g _ hg hv => ⟨g, hg, hv⟩

theorem espnPreserved_trans {a b c : List Game}
    (h1 : espnPreserved a b) (h2 : espnPreserved b c) : espnPreserved a c :=
  fun i g v hg hv =>
    let ⟨g', hg', hv'⟩ := h1 i g v hg hv
    h2 i g' v hg' hv'

theorem getElem?_map_of {f : Game → Game} {gs : List Game} {i : Nat} {g : Game}
    (hg : gs[i]? = some g) : (gs.map f)[i]? = some (f g) := by
  rw [List.getElem?_map, hg]; rfl

theorem espnPreserved_map (f : Game → Game)
    (hf : ∀ g v, g.espn_event_id = some v → (f g).espn_event_id = some v)
    (gs : List Game) : espnPreserved gs (gs.map f) :=
  fun _ g v hg hv => ⟨f g, getElem?_map_of hg, hf g v hv⟩

theorem espnPreserved_append (gs extra : List Game) :
    espnPreserved gs (gs ++ extra) := by
  intro i g v hg hv
  refine ⟨g, ?_, hv⟩
  have hi : i < gs.length := (List.getElem?_eq_some.mp hg).1
  rw [List.getElem?_append, if_pos hi]
  exact hg

theorem espnPreserved_update_scores_by_event_id
    (now e : Int) (hs aw : Option Int) (st : String) (gs : List Game) :
    espnPreserved gs (_update_scores_by_event_id now e hs aw st gs).2 := by
  apply espnPreserved_map
  intro g v hv
  by_cases hc : idWriteCond e hs aw st g
  · rw [if_pos hc]; exact hv
  · rw [if_neg hc]; exact hv

theorem espnPreserved_update_scores_by_triplet
    (now w : Int) (h a : String) (hs aw : Option Int) (st : String) (e : Int)
    (gs : List Game) :
    espnPreserved gs (_update_scores_by_triplet now w h a hs aw st e gs).2 := by
  apply espnPreserved_map
  intro g v hv
  by_cases hc : tripletWriteCond w h a hs aw st g
  · rw [if_pos hc]; simp [row_update_scores_t, hv]
  · rw [if_neg hc]; exact hv

theorem espnPreserved_update_kickoff_by_event_id
    (now e nk : Int) (gs : List Game) :
    espnPreserved gs (_update_kickoff_by_event_id now e nk gs).2 := by
  apply espnPreserved_map
  intro g v hv
  by_cases hc : kickIdCond e nk g
  · rw [if_pos hc]; exact hv
  · rw [if_neg hc]; exact hv

theorem espnPreserved_update_kickoff_by_triplet
    (now w : Int) (h a : String) (nk : Int) (e : Option Int) (gs : List Game) :
    espnPreserved gs (_update_kickoff_by_triplet now w h a nk e gs).2 := by
  apply espnPreserved_map
  intro g v hv
  by_cases hc : kickTripletCond w h a nk g
  · rw [if_pos hc]; simp [hv, Option.orElse]
  · rw [if_neg hc]; exact hv

theorem espnPreserved_upsert_game
    (now w kick : Int) (h a : String) (e : Int) (gs : List Game) :
    espnPreserved gs (_upsert_game_schedule_row now w kick h a e gs).2 := by
  unfold _upsert_game_schedule_row
  split
  · apply espnPreserved_map
    intro g v hv
    by_cases hc : tripleCond w h a g
    · rw [if_pos hc]; simp [hv]
    · rw [if_neg hc]; exact hv
  · exact espnPreserved_append gs _

/-- Unfolding of `sync_event` (ite form). -/
theorem sync_event_eq (now week : Int) (ev : Event) (gs : List Game) :
    sync_event now week ev gs =
      if (_update_scores_by_event_id now ev.id (_map_scores_and_status ev).2.1
            (_map_scores_and_status ev).2.2 (_map_scores_and_status ev).1 gs).1 = 0 then
        _update_scores_by_triplet now week ev.home_abbr ev.away_abbr
          (_map_scores_and_status ev).2.1 (_map_scores_and_status ev).2.2
          (_map_scores_and_status ev).1 ev.id gs
      else
        _update_scores_by_event_id now ev.id (_map_scores_and_status ev).2.1
          (_map_scores_and_status ev).2.2 (_map_scores_and_status ev).1 gs := rfl

/-- Unfolding of `kick_event` (ite form). -/
theorem kick_event_eq (now week : Int) (ev : Event) (gs : List Game) :
    kick_event now week ev gs =
      if (_update_kickoff_by_event_id now ev.id ev.date gs).1 = 0 then
        _update_kickoff_by_triplet now week ev.home_abbr ev.away_abbr ev.date
          (some ev.id) gs
      else _update_kickoff_by_event_id now ev.id ev.date gs := rfl

theorem espnPreserved_sync_event (now week : Int) (ev : Event) (gs : List Game) :
    espnPreserved gs (sync_event now week ev gs).2 := by
  rw [sync_event_eq]
  split
  · apply espnPreserved_update_scores_by_triplet
  · apply espnPreserved_update_scores_by_event_id

theorem espnPreserved_kick_event (now week : Int) (ev : Event) (gs : List Game) :
    espnPreserved gs (kick_event now week ev gs).2 := by
  rw [kick_event_eq]
  split
  · apply espnPreserved_update_kickoff_by_triplet
  · apply espnPreserved_update_kickoff_by_event_id

theorem espnPreserved_foldl (h : Event → List Game → List Game)
    (hh : ∀ ev gs, espnPreserved gs (h ev gs)) (evs : List Event) :
    ∀ gs, espnPreserved gs (evs.foldl (fun gs ev => h ev gs) gs) := by
  induction evs with
  | nil => intro gs; exact espnPreserved_rfl gs
  | cons e t ih =>
    intro gs
    simp only [List.foldl_cons]
    exact espnPreserved_trans (hh e gs) (ih (h e gs))

theorem sync_fold_games (now week : Int) (evs : List Event) :
    ∀ (acc : Nat × List Game),
      (evs.foldl (sync_step now week) acc).2
        = evs.foldl (fun gs ev => (sync_event now week ev gs).2) acc.2 := by
  induction evs with
  | nil => intro acc; rfl
  | cons e t ih =>
    intro acc
    simp only [List.foldl_cons]
    exact ih _

theorem kick_fold_games (now week : Int) (evs : List Event) :
    ∀ (acc : Nat × List Game),
      (evs.foldl (kick_step now week) acc).2
        = evs.foldl (fun gs ev => (kick_event now week ev gs).2) acc.2 := by
  induction evs with
  | nil => intro acc; rfl
  | cons e t ih =>
    intro acc
    simp only [List.foldl_cons]
    exact ih _

theorem load_fold_games (now week : Int) (evs : List Event) :
    ∀ (acc : Nat × Db),
      ((evs.foldl (fun a ev => load_event now week ev a) acc).2).games
        = evs.foldl (fun gs ev =>
            (_upsert_game_schedule_row now week ev.date ev.home_abbr
              ev.away_abbr ev.id gs).2) acc.2.games := by
  induction evs with
  | nil => intro acc; rfl
  | cons e t ih =>
    intro acc
    simp only [List.foldl_cons]
    exact ih _

theorem espnPreserved_load_week_step (now : Int) (feed : Int → List Event)
    (acc : Nat × Db) (week : Int) :
    espnPreserved acc.2.games (load_week_step now feed acc week).2.games := by
  unfold load_week_step
  by_cases h : feed week = []
  · rw [if_pos h]; exact espnPreserved_rfl _
  · rw [if_neg h]
    rw [load_fold_games]
    exact espnPreserved_foldl _
      (fun ev gs => espnPreserved_upsert_game now week ev.date ev.home_abbr
        ev.away_abbr ev.id gs) (feed week) _

theorem espnPreserved_load_weeks (now : Int) (feed : Int → List Event)
    (ws : List Int) :
    ∀ (acc : Nat × Db),
      espnPreserved acc.2.games ((ws.foldl (load_week_step now feed) acc).2).games := by
  induction ws with
  | nil => intro acc; exact espnPreserved_rfl _
  | cons w t ih =>
    intro acc
    simp only [List.foldl_cons]
    exact espnPreserved_trans (espnPreserved_load_week_step now feed acc w)
      (ih (load_week_step now feed acc w))

/-- C5: once `espn_event_id` is non-null on a game row, none of the three
reconciliation operations ever changes it (the feed may even report a
different id — `COALESCE` keeps the stored one); and a row matched by its
`(week, home, away)` triple while its id is still null has the id
backfilled to the feed event's id by the score-sync fallback update. -/
theorem C5_external_event_id_write_once (now week : Int)
    (feed : Int → List Event) (db : Db) (ev : Event) :
    espnPreserved db.games (sync_scores_and_status now feed week db).2.games ∧
    espnPreserved db.games (refresh_kickoffs now feed week db).2.games ∧
    espnPreserved db.games (load_schedule now feed db).2.games ∧
    (∀ (gs : List Game) (i : Nat) (g : Game), gs[i]? = some g →
      g.week_number = week → g.home_abbr = ev.home_abbr →
      g.away_abbr = ev.away_abbr → g.espn_event_id = none →
      (∀ g' ∈ gs, g'.espn_event_id ≠ some ev.id) →
      ∃ g', (sync_event now week ev gs).2[i]? = some g' ∧
        g'.espn_event_id = some ev.id) := by
  refine ⟨?_, ?_, ?_, ?_⟩
  · show espnPreserved db.games
      ((feed week).foldl (sync_step now week) (0, db.games)).2
    rw [sync_fold_games]
    exact espnPreserved_foldl _ (fun ev gs => espnPreserved_sync_event now week ev gs)
      (feed week) _
  · show espnPreserved db.games
      ((feed week).foldl (kick_step now week) (0, db.games)).2
    rw [kick_fold_games]
    exact espnPreserved_foldl _ (fun ev gs => espnPreserved_kick_event now week ev gs)
      (feed week) _
  · exact espnPreserved_load_weeks now feed weeksList (0, db)
  · intro gs i g hg hw hh ha hnull hnoid
    rw [sync_event_eq]
    have hcount : (_update_scores_by_event_id now ev.id
        (_map_scores_and_status ev).2.1 (_map_scores_and_status ev).2.2
        (_map_scores_and_status ev).1 gs).1 = 0 := by
      unfold _update_scores_by_event_id
      simp only [List.countP_eq_zero]
      intro g' hg'
      simp only [decide_eq_true_eq]
      intro hc
      exact hnoid g' hg' hc.1
    rw [if_pos hcount]
    have hcond : tripletWriteCond week ev.home_abbr ev.away_abbr
        (_map_scores_and_status ev).2.1 (_map_scores_and_status ev).2.2
        (_map_scores_and_status ev).1 g :=
      ⟨hw, hh, ha, Or.inr (Or.inr (Or.inr hnull))⟩
    unfold _update_scores_by_triplet
    refine ⟨_, getElem?_map_of hg, ?_⟩
    rw [if_pos hcond]
    simp [row_update_scores_t, hnull]

/-- A stored game that already carries (a different) external id 9. -/
def exG9 : Game where
  week_number := 1
  home_abbr := "A"
  away_abbr := "B"
  espn_event_id := some 9
  kickoff_at := 100
  status := "in_progress"
  home_score := some 0
  away_score := some 0
  updated_at := 0

def exDb9 : Db where
  weeks := [(1, 50)]
  teams := []
  games := [exG9]

/-- Witness for C5: preservation of id 9 under a sync whose feed reports a
different id (5) for the same triple, and the null-id backfill to 5. -/
theorem C5_external_event_id_write_once_witness :
    (∃ g', (sync_scores_and_status 7 exFeed 1 exDb9).2.games[0]? = some g' ∧
      g'.espn_event_id = some 9) ∧
    (∃ g', (sync_event 7 1 exEv [exG]).2[0]? = some g' ∧
      g'.espn_event_id = some 5) :=
  ⟨(C5_external_event_id_write_once 7 1 exFeed exDb9 exEv).1 0 exG9 9
      (by decide) (by decide),
   (C5_external_event_id_write_once 7 1 exFeed exDb9 exEv).2.2.2
      [exG] 0 exG (by decide) (by decide) (by decide) (by decide) (by decide)
      (by decide)⟩

/-! ## C3: change-detected score refresh -/

/-- The triplet WHERE key of `sync_scores_and_status`'s fallback, for the
sync week and a feed event. -/
def evTriple (week : Int) (ev : Event) (g : Game) : Prop :=
  g.week_number = week ∧ g.home_abbr = ev.home_abbr ∧ g.away_abbr = ev.away_abbr

instance (week : Int) (ev : Event) (g : Game) : Decidable (evTriple week ev g) := by
  unfold evTriple; exact inferInstance

/-- The stored row agrees with the feed event's scores and mapped status. -/
def scoresMatch (ev : Event) (g : Game) : Prop :=
  g.home_score = ev.home_score ∧ g.away_score = ev.away_score ∧
    g.status = (_map_scores_and_status ev).1

instance (ev : Event) (g : Game) : Decidable (scoresMatch ev g) := by
  unfold scoresMatch; exact inferInstance

/-- After a successful pass, an event is settled: every row carrying its id
agrees with it, and every row matching its triple agrees and has a
non-null id. -/
def settled (week : Int) (ev : Event) (gs : List Game) : Prop :=
  ∀ g ∈ gs, (g.espn_event_id = some ev.id → scoresMatch ev g) ∧
    (evTriple week ev g → scoresMatch ev g ∧ g.espn_event_id ≠ none)

instance (week : Int) (ev : Event) (gs : List Game) :
    Decidable (settled week ev gs) := by
  unfold settled; exact inferInstance

/-- A stored id pointing at a feed event only occurs on a row whose triple
matches that event. -/
def coherent (week : Int) (evs : List Event) (gs : List Game) : Prop :=
  ∀ g ∈ gs, ∀ ev ∈ evs, g.espn_event_id = some ev.id → evTriple week ev g

instance (week : Int) (evs : List Event) (gs : List Game) :
    Decidable (coherent week evs gs) := by
  unfold coherent; exact inferInstance

/-- `(week_number, home_abbr, away_abbr)` determines a row (the games
table's unique natural key). -/
def tripleOnceDb (gs : List Game) : Prop :=
  ∀ g ∈ gs, ∀ g' ∈ gs, g.week_number = g'.week_number →
    g.home_abbr = g'.home_abbr → g.away_abbr = g'.away_abbr → g = g'

instance (gs : List Game) : Decidable (tripleOnceDb gs) := by
  unfold tripleOnceDb; exact inferInstance

/-- Two feed events with distinct ids and distinct `(home, away)` pairs. -/
def evDistinct (e e' : Event) : Prop :=
  e.id ≠ e'.id ∧ (e.home_abbr ≠ e'.home_abbr ∨ e.away_abbr ≠ e'.away_abbr)

instance (e e' : Event) : Decidable (evDistinct e e') := by
  unfold evDistinct; exact inferInstance

theorem evDistinct_symm : Symmetric evDistinct := by
  intro e e' h
  refine ⟨fun hh => h.1 hh.symm, ?_⟩
  rcases h.2 with hh | ha
  · exact Or.inl (fun q => hh q.symm)
  · exact Or.inr (fun q => ha q.symm)

/-- The row updates of both score-update statements keep the natural key
and (except for the explicit `COALESCE` backfill) the external id. -/
theorem ite_row_update_scores_fields (now e : Int) (hs aw : Option Int)
    (st : String) (g : Game) :
    ((if idWriteCond e hs aw st g then row_update_scores now hs aw st g
      else g).week_number = g.week_number) ∧
    ((if idWriteCond e hs aw st g then row_update_scores now hs aw st g
      else g).home_abbr = g.home_abbr) ∧
    ((if idWriteCond e hs aw st g then row_update_scores now hs aw st g
      else g).away_abbr = g.away_abbr) ∧
    ((if idWriteCond e hs aw st g then row_update_scores now hs aw st g
      else g).espn_event_id = g.espn_event_id) := by
  by_cases hc : idWriteCond e hs aw st g <;>
    simp [hc, row_update_scores]

theorem ite_row_update_scores_t_fields (now : Int) (w : Int) (h a : String)
    (hs aw : Option Int) (st : String) (e : Int) (g : Game) :
    ((if tripletWriteCond w h a hs aw st g then row_update_scores_t now hs aw st e g
      else g).week_number = g.week_number) ∧
    ((if tripletWriteCond w h a hs aw st g then row_update_scores_t now hs aw st e g
      else g).home_abbr = g.home_abbr) ∧
    ((if tripletWriteCond w h a hs aw st g then row_update_scores_t now hs aw st e g
      else g).away_abbr = g.away_abbr) := by
  by_cases hc : tripletWriteCond w h a hs aw st g <;>
    simp [hc, row_update_scores_t]

/-- C3 counterexample: the stored game `exG` already carries exactly the
feed's scores and status (nothing differs), yet the first sync call writes
the row (the triplet fallback fires because the stored external id is
null) and reports 1 updated game; the number of games whose stored scores
or status differ from the feed is 0. -/
theorem C3_score_refresh_counterexample :
    (sync_scores_and_status 7 exFeed 1 exDb).1 = 1 ∧
    (sync_scores_and_status 7 exFeed 1 exDb).2.games ≠ exDb.games ∧
    exDb.games.countP (fun g => decide (g.home_score ≠ exEv.home_score ∨
      g.away_score ≠ exEv.away_score ∨
      g.status ≠ (_map_scores_and_status exEv).1)) = 0 := by
  refine ⟨by decide, by decide, by decide⟩

/-- Processing an event settles it, provided rows carrying its id match
its triple and triples are unique. -/
theorem sync_event_settles (now week : Int) (ev : Event) (gs : List Game)
    (hco : ∀ g ∈ gs, g.espn_event_id = some ev.id → evTriple week ev g)
    (ht : tripleOnceDb gs) :
    settled week ev (sync_event now week ev gs).2 := by
  rw [sync_event_eq]
  by_cases hz : (_update_scores_by_event_id now ev.id (_map_scores_and_status ev).2.1
      (_map_scores_and_status ev).2.2 (_map_scores_and_status ev).1 gs).1 = 0
  · rw [if_pos hz]
    intro x hx
    unfold _update_scores_by_triplet at hx
    simp only [List.mem_map] at hx
    obtain ⟨g, hg, rfl⟩ := hx
    have hnid : ¬ idWriteCond ev.id (_map_scores_and_status ev).2.1
        (_map_scores_and_status ev).2.2 (_map_scores_and_status ev).1 g := by
      unfold _update_scores_by_event_id at hz
      simp only [List.countP_eq_zero, decide_eq_true_eq] at hz
      exact hz g hg
    by_cases hc : tripletWriteCond week ev.home_abbr ev.away_abbr
        (_map_scores_and_status ev).2.1 (_map_scores_and_status ev).2.2
        (_map_scores_and_status ev).1 g
    · rw [if_pos hc]
      constructor
      · intro _
        exact ⟨rfl, rfl, rfl⟩
      · intro _
        refine ⟨⟨rfl, rfl, rfl⟩, ?_⟩
        simp [row_update_scores_t]
    · rw [if_neg hc]
      constructor
      · intro hesp
        have hnd : ¬(g.home_score ≠ (_map_scores_and_status ev).2.1 ∨
            g.away_score ≠ (_map_scores_and_status ev).2.2 ∨
            g.status ≠ (_map_scores_and_status ev).1) :=
          fun hd => hnid ⟨hesp, hd⟩
        push_neg at hnd
        exact ⟨hnd.1, hnd.2.1, hnd.2.2⟩
      · intro htr
        have hnd : ¬(g.home_score ≠ (_map_scores_and_status ev).2.1 ∨
            g.away_score ≠ (_map_scores_and_status ev).2.2 ∨
            g.status ≠ (_map_scores_and_status ev).1 ∨
            g.espn_event_id = none) :=
          fun hd => hc ⟨htr.1, htr.2.1, htr.2.2, hd⟩
        push_neg at hnd
        exact ⟨⟨hnd.1, hnd.2.1, hnd.2.2.1⟩, hnd.2.2.2⟩
  · rw [if_neg hz]
    have hex : ∃ gw ∈ gs, idWriteCond ev.id (_map_scores_and_status ev).2.1
        (_map_scores_and_status ev).2.2 (_map_scores_and_status ev).1 gw := by
      unfold _update_scores_by_event_id at hz
      have hpos : 0 < gs.countP (fun g =>
          decide (idWriteCond ev.id (_map_scores_and_status ev).2.1
            (_map_scores_and_status ev).2.2 (_map_scores_and_status ev).1 g)) :=
        Nat.pos_of_ne_zero hz
      have := List.countP_pos_iff.mp hpos
      simpa only [decide_eq_true_eq] using this
    obtain ⟨gw, hgw, hcw⟩ := hex
    have htw : evTriple week ev gw := hco gw hgw hcw.1
    intro x hx
    unfold _update_scores_by_event_id at hx
    simp only [List.mem_map] at hx
    obtain ⟨g, hg, rfl⟩ := hx
    by_cases hc : idWriteCond ev.id (_map_scores_and_status ev).2.1
        (_map_scores_and_status ev).2.2 (_map_scores_and_status ev).1 g
    · rw [if_pos hc]
      constructor
      · intro _
        exact ⟨rfl, rfl, rfl⟩
      · intro _
        refine ⟨⟨rfl, rfl, rfl⟩, ?_⟩
        have h1 := hc.1
        simp [row_update_scores, h1]
    · rw [if_neg hc]
      constructor
      · intro hesp
        have hnd : ¬(g.home_score ≠ (_map_scores_and_status ev).2.1 ∨
            g.away_score ≠ (_map_scores_and_status ev).2.2 ∨
            g.status ≠ (_map_scores_and_status ev).1) :=
          fun hd => hc ⟨hesp, hd⟩
        push_neg at hnd
        exact ⟨hnd.1, hnd.2.1, hnd.2.2⟩
      · intro htr
        have hgg : g = gw :=
          ht g hg gw hgw (htr.1.trans htw.1.symm)
            (htr.2.1.trans htw.2.1.symm) (htr.2.2.trans htw.2.2.symm)
        exact absurd (hgg ▸ hcw) hc

/-- Processing one event does not unsettle a distinct, coherent event. -/
theorem sync_event_preserves_settled (now week : Int) (ev evp : Event)
    (gs : List Game)
    (hss : settled week evp gs)
    (hd : evDistinct ev evp)
    (hco : ∀ g ∈ gs, g.espn_event_id = some ev.id → evTriple week ev g)
    (hcop : ∀ g ∈ gs, g.espn_event_id = some evp.id → evTriple week evp g) :
    settled week evp (sync_event now week ev gs).2 := by
  rw [sync_event_eq]
  split
  · -- triplet fallback branch
    intro x hx
    unfold _update_scores_by_triplet at hx
    simp only [List.mem_map] at hx
    obtain ⟨g, hg, rfl⟩ := hx
    by_cases hc : tripletWriteCond week ev.home_abbr ev.away_abbr
        (_map_scores_and_status ev).2.1 (_map_scores_and_status ev).2.2
        (_map_scores_and_status ev).1 g
    · rw [if_pos hc]
      have hgt : evTriple week ev g := ⟨hc.1, hc.2.1, hc.2.2.1⟩
      constructor
      · intro hesp
        exfalso
        simp only [row_update_scores_t] at hesp
        cases hespn : g.espn_event_id with
        | some w =>
          rw [hespn] at hesp
          simp only [Option.getD_some, Option.some_inj] at hesp
          have h1 : evTriple week evp g := hcop g hg (by rw [hespn, hesp])
          rcases hd.2 with hh | ha
          · exact hh (hgt.2.1.symm.trans h1.2.1)
          · exact ha (hgt.2.2.symm.trans h1.2.2)
        | none =>
          rw [hespn] at hesp
          simp only [Option.getD_none, Option.some_inj] at hesp
          exact hd.1 hesp
      · intro htr
        exfalso
        have h1 : evTriple week evp g := by
          unfold evTriple at htr ⊢
          simpa [row_update_scores_t] using htr
        rcases hd.2 with hh | ha
        · exact hh (hgt.2.1.symm.trans h1.2.1)
        · exact ha (hgt.2.2.symm.trans h1.2.2)
    · rw [if_neg hc]
      exact hss g hg
  · -- by-event-id branch
    intro x hx
    unfold _update_scores_by_event_id at hx
    simp only [List.mem_map] at hx
    obtain ⟨g, hg, rfl⟩ := hx
    by_cases hc : idWriteCond ev.id (_map_scores_and_status ev).2.1
        (_map_scores_and_status ev).2.2 (_map_scores_and_status ev).1 g
    · rw [if_pos hc]
      constructor
      · intro hesp
        exfalso
        have hesp' : g.espn_event_id = some evp.id := by
          simpa [row_update_scores] using hesp
        have : some ev.id = some evp.id := hc.1.symm.trans hesp'
        exact hd.1 (Option.some_inj.mp this)
      · intro htr
        exfalso
        have h2 : evTriple week ev g := hco g hg hc.1
        have h1 : evTriple week evp g := by
          unfold evTriple at htr ⊢
          simpa [row_update_scores] using htr
        rcases hd.2 with hh | ha
        · exact hh (h2.2.1.symm.trans h1.2.1)
        · exact ha (h2.2.2.symm.trans h1.2.2)
    · rw [if_neg hc]
      exact hss g hg

/-- Processing an event keeps the id/triple coherence of the whole feed. -/
theorem sync_event_preserves_coherent (now week : Int) (ev : Event)
    (F : List Event) (gs : List Game)
    (hpair : List.Pairwise evDistinct F) (hev : ev ∈ F)
    (hco : coherent week F gs) :
    coherent week F (sync_event now week ev gs).2 := by
  rw [sync_event_eq]
  split
  · intro x hx evq hevq hesp
    unfold _update_scores_by_triplet at hx
    simp only [List.mem_map] at hx
    obtain ⟨g, hg, rfl⟩ := hx
    by_cases hc : tripletWriteCond week ev.home_abbr ev.away_abbr
        (_map_scores_and_status ev).2.1 (_map_scores_and_status ev).2.2
        (_map_scores_and_status ev).1 g
    · rw [if_pos hc] at hesp ⊢
      have hfields : evTriple week evq g → evTriple week evq
          (row_update_scores_t now (_map_scores_and_status ev).2.1
            (_map_scores_and_status ev).2.2 (_map_scores_and_status ev).1 ev.id g) := by
        intro h
        unfold evTriple at h ⊢
        simpa [row_update_scores_t] using h
      simp only [row_update_scores_t] at hesp
      cases hespn : g.espn_event_id with
      | some w =>
        rw [hespn] at hesp
        simp only [Option.getD_some, Option.some_inj] at hesp
        exact hfields (hco g hg evq hevq (by rw [hespn, hesp]))
      | none =>
        rw [hespn] at hesp
        simp only [Option.getD_none, Option.some_inj] at hesp
        have heq : evq = ev := by
          by_contra hne
          exact (List.Pairwise.forall evDistinct_symm hpair hevq hev hne).1 hesp.symm
        subst heq
        exact hfields ⟨hc.1, hc.2.1, hc.2.2.1⟩
    · rw [if_neg hc] at hesp ⊢
      exact hco g hg evq hevq hesp
  · intro x hx evq hevq hesp
    unfold _update_scores_by_event_id at hx
    simp only [List.mem_map] at hx
    obtain ⟨g, hg, rfl⟩ := hx
    by_cases hc : idWriteCond ev.id (_map_scores_and_status ev).2.1
        (_map_scores_and_status ev).2.2 (_map_scores_and_status ev).1 g
    · rw [if_pos hc] at hesp ⊢
      have hesp' : g.espn_event_id = some evq.id := by
        simpa [row_update_scores] using hesp
      have h := hco g hg evq hevq hesp'
      unfold evTriple at h ⊢
      simpa [row_update_scores] using h
    · rw [if_neg hc] at hesp ⊢
      exact hco g hg evq hevq hesp

/-- Processing an event keeps natural-key uniqueness. -/
theorem sync_event_preserves_tripleOnce (now week : Int) (ev : Event)
    (gs : List Game) (ht : tripleOnceDb gs) :
    tripleOnceDb (sync_event now week ev gs).2 := by
  rw [sync_event_eq]
  split
  · intro x hx y hy hw hh ha
    unfold _update_scores_by_triplet at hx hy
    simp only [List.mem_map] at hx hy
    obtain ⟨g, hg, rfl⟩ := hx
    obtain ⟨g', hg', rfl⟩ := hy
    have f1 := ite_row_update_scores_t_fields now week ev.home_abbr ev.away_abbr
      (_map_scores_and_status ev).2.1 (_map_scores_and_status ev).2.2
      (_map_scores_and_status ev).1 ev.id g
    have f2 := ite_row_update_scores_t_fields now week ev.home_abbr ev.away_abbr
      (_map_scores_and_status ev).2.1 (_map_scores_and_status ev).2.2
      (_map_scores_and_status ev).1 ev.id g'
    have hgg : g = g' := by
      apply ht g hg g' hg'
      · rw [← f1.1, ← f2.1]; exact hw
      · rw [← f1.2.1, ← f2.2.1]; exact hh
      · rw [← f1.2.2, ← f2.2.2]; exact ha
    rw [hgg]
  · intro x hx y hy hw hh ha
    unfold _update_scores_by_event_id at hx hy
    simp only [List.mem_map] at hx hy
    obtain ⟨g, hg, rfl⟩ := hx
    obtain ⟨g', hg', rfl⟩ := hy
    have f1 := ite_row_update_scores_fields now ev.id
      (_map_scores_and_status ev).2.1 (_map_scores_and_status ev).2.2
      (_map_scores_and_status ev).1 g
    have f2 := ite_row_update_scores_fields now ev.id
      (_map_scores_and_status ev).2.1 (_map_scores_and_status ev).2.2
      (_map_scores_and_status ev).1 g'
    have hgg : g = g' := by
      apply ht g hg g' hg'
      · rw [← f1.1, ← f2.1]; exact hw
      · rw [← f1.2.1, ← f2.2.1]; exact hh
      · rw [← f1.2.2.1, ← f2.2.2.1]; exact ha
    rw [hgg]

/-- Folding a sequence of distinct, coherent events settles every member
of the feed (invariant induction over the remaining events). -/
theorem sync_fold_settles_all (now week : Int) (F : List Event)
    (hpair : List.Pairwise evDistinct F) :
    ∀ (todo : List Event) (gs : List Game),
      (∀ e ∈ todo, e ∈ F) →
      coherent week F gs → tripleOnceDb gs →
      (∀ e ∈ F, e ∉ todo → settled week e gs) →
      ∀ e ∈ F, settled week e
        (todo.foldl (fun gs ev => (sync_event now week ev gs).2) gs) := by
  intro todo
  induction todo with
  | nil =>
    intro gs _ _ _ hs e he
    simpa using hs e he (by simp)
  | cons a rest ih =>
    intro gs hsub hco ht hs
    simp only [List.foldl_cons]
    apply ih
    · intro e he; exact hsub e (List.mem_cons_of_mem _ he)
    · exact sync_event_preserves_coherent now week a F gs hpair
        (hsub a (List.mem_cons_self _ _)) hco
    · exact sync_event_preserves_tripleOnce now week a gs ht
    · intro e he hne
      by_cases heq : e = a
      · subst heq
        exact sync_event_settles now week e gs
          (fun g hg hesp => hco g hg e (hsub e (List.mem_cons_self _ _)) hesp) ht
      · have hnotin : e ∉ a :: rest := by
          intro hmem
          rcases List.mem_cons.mp hmem with h1 | h2
          · exact heq h1
          · exact hne h2
        exact sync_event_preserves_settled now week a e gs (hs e he hnotin)
          (List.Pairwise.forall evDistinct_symm hpair
            (hsub a (List.mem_cons_self _ _)) he (fun q => heq q.symm))
          (fun g hg => hco g hg a (hsub a (List.mem_cons_self _ _)))
          (fun g hg => hco g hg e he)

/-- On a settled event the sync pass matches no row and changes nothing. -/
theorem sync_event_settled_noop (now week : Int) (ev : Event) (gs : List Game)
    (hs : settled week ev gs) : sync_event now week ev gs = (0, gs) := by
  rw [sync_event_eq]
  have hz : (_update_scores_by_event_id now ev.id (_map_scores_and_status ev).2.1
      (_map_scores_and_status ev).2.2 (_map_scores_and_status ev).1 gs).1 = 0 := by
    unfold _update_scores_by_event_id
    simp only [List.countP_eq_zero, decide_eq_true_eq]
    intro g hg hc
    have hm := (hs g hg).1 hc.1
    rcases hc.2 with hd | hd | hd
    · exact hd hm.1
    · exact hd hm.2.1
    · exact hd hm.2.2
  rw [if_pos hz]
  unfold _update_scores_by_triplet
  have hnc : ∀ g ∈ gs, ¬ tripletWriteCond week ev.home_abbr ev.away_abbr
      (_map_scores_and_status ev).2.1 (_map_scores_and_status ev).2.2
      (_map_scores_and_status ev).1 g := by
    intro g hg hc
    have h1 := (hs g hg).2 ⟨hc.1, hc.2.1, hc.2.2.1⟩
    rcases hc.2.2.2 with hd | hd | hd | hd
    · exact hd h1.1.1
    · exact hd h1.1.2.1
    · exact hd h1.1.2.2
    · exact h1.2 hd
  have hcnt : gs.countP (fun g =>
      decide (tripletWriteCond week ev.home_abbr ev.away_abbr
        (_map_scores_and_status ev).2.1 (_map_scores_and_status ev).2.2
        (_map_scores_and_status ev).1 g)) = 0 := by
    simp only [List.countP_eq_zero, decide_eq_true_eq]
    exact hnc
  have hmap : gs.map (fun g =>
      if tripletWriteCond week ev.home_abbr ev.away_abbr
        (_map_scores_and_status ev).2.1 (_map_scores_and_status ev).2.2
        (_map_scores_and_status ev).1 g then
        row_update_scores_t now (_map_scores_and_status ev).2.1
          (_map_scores_and_status ev).2.2 (_map_scores_and_status ev).1 ev.id g
      else g) = gs := by
    have hcongr : ∀ g ∈ gs, (if tripletWriteCond week ev.home_abbr ev.away_abbr
        (_map_scores_and_status ev).2.1 (_map_scores_and_status ev).2.2
        (_map_scores_and_status ev).1 g then
        row_update_scores_t now (_map_scores_and_status ev).2.1
          (_map_scores_and_status ev).2.2 (_map_scores_and_status ev).1 ev.id g
      else g) = id g := fun g hg => if_neg (hnc g hg)
    rw [List.map_congr_left hcongr, List.map_id]
  rw [hcnt, hmap]

/-- Folding over settled events accumulates 0 and leaves the rows alone. -/
theorem sync_fold_noop (now week : Int) (evs : List Event) :
    ∀ (n : Nat) (gs : List Game), (∀ ev ∈ evs, settled week ev gs) →
      evs.foldl (sync_step now week) (n, gs) = (n, gs) := by
  induction evs with
  | nil => intro n gs _; rfl
  | cons a rest ih =>
    intro n gs hs
    simp only [List.foldl_cons]
    have h1 := sync_event_settled_noop now week a gs (hs a (List.mem_cons_self _ _))
    have hstep : sync_step now week (n, gs) a = (n, gs) := by
      unfold sync_step
      rw [h1]
      rfl
    rw [hstep]
    exact ih n gs (fun ev hev => hs ev (List.mem_cons_of_mem _ hev))

/-- C3 (amended): score refresh writes a row exactly when a stored score
or the status differs from the feed — or, on the triplet-fallback path,
when the stored external id is still null (the backfill case, which the
original claim missed); and under feed/database consistency (events
pairwise distinct, unique stored triples, stored ids only on rows matching
the corresponding event's triple) a second call with an unchanged feed
reports 0 updated games and leaves every game row unchanged. -/
theorem C3_refresh_scores_change_detection (now now' week : Int)
    (feed : Int → List Event) (db : Db) :
    (∀ (e : Int) (hs aw : Option Int) (st : String) (gs : List Game)
      (i : Nat) (g : Game), gs[i]? = some g →
      ((_update_scores_by_event_id now e hs aw st gs).2[i]? ≠ some g ↔
        idWriteCond e hs aw st g)) ∧
    (∀ (w : Int) (h a : String) (hs aw : Option Int) (st : String) (e : Int)
      (gs : List Game) (i : Nat) (g : Game), gs[i]? = some g →
      ((_update_scores_by_triplet now w h a hs aw st e gs).2[i]? ≠ some g ↔
        tripletWriteCond w h a hs aw st g)) ∧
    (coherent week (feed week) db.games → tripleOnceDb db.games →
      List.Pairwise evDistinct (feed week) →
      (sync_scores_and_status now' feed week
        (sync_scores_and_status now feed week db).2).1 = 0 ∧
      (sync_scores_and_status now' feed week
        (sync_scores_and_status now feed week db).2).2.games =
        (sync_scores_and_status now feed week db).2.games) := by
  refine ⟨?_, ?_, ?_⟩
  · intro e hs aw st gs i g hg
    unfold _update_scores_by_event_id
    rw [getElem?_map_of hg]
    constructor
    · intro hne
      by_contra hc
      rw [if_neg hc] at hne
      exact hne rfl
    · intro hc heq
      rw [if_pos hc] at heq
      have heq' := Option.some_inj.mp heq
      rcases hc.2 with hd | hd | hd
      · exact hd (congrArg Game.home_score heq').symm
      · exact hd (congrArg Game.away_score heq').symm
      · exact hd (congrArg Game.status heq').symm
  · intro w h a hs aw st e gs i g hg
    unfold _update_scores_by_triplet
    rw [getElem?_map_of hg]
    constructor
    · intro hne
      by_contra hc
      rw [if_neg hc] at hne
      exact hne rfl
    · intro hc heq
      rw [if_pos hc] at heq
      have heq' := Option.some_inj.mp heq
      rcases hc.2.2.2 with hd | hd | hd | hd
      · exact hd (congrArg Game.home_score heq').symm
      · exact hd (congrArg Game.away_score heq').symm
      · exact hd (congrArg Game.status heq').symm
      · have hesp := congrArg Game.espn_event_id heq'
        rw [hd] at hesp
        simp [row_update_scores_t] at hesp
  · intro hco ht hpair
    have hgames1 : (sync_scores_and_status now feed week db).2.games
        = (feed week).foldl (fun gs ev => (sync_event now week ev gs).2) db.games := by
      have hfg := sync_fold_games now week (feed week) (0, db.games)
      exact hfg
    have hall : ∀ e ∈ feed week,
        settled week e ((sync_scores_and_status now feed week db).2.games) := by
      rw [hgames1]
      exact sync_fold_settles_all now week (feed week) hpair (feed week) db.games
        (fun _ hm => hm) hco ht (fun e he hn => absurd he hn)
    have hnoop := sync_fold_noop now' week (feed week) 0
      ((sync_scores_and_status now feed week db).2.games) hall
    constructor
    · show ((feed week).foldl (sync_step now' week)
        (0, (sync_scores_and_status now feed week db).2.games)).1 = 0
      rw [hnoop]
    · show ((feed week).foldl (sync_step now' week)
        (0, (sync_scores_and_status now feed week db).2.games)).2 =
        (sync_scores_and_status now feed week db).2.games
      rw [hnoop]

/-- Witness for C3 (amended) at the concrete backfill scenario. -/
theorem C3_refresh_scores_change_detection_witness :
    ((sync_scores_and_status 8 exFeed 1 (sync_scores_and_status 7 exFeed 1 exDb).2).1 = 0 ∧
     (sync_scores_and_status 8 exFeed 1 (sync_scores_and_status 7 exFeed 1 exDb).2).2.games =
       (sync_scores_and_status 7 exFeed 1 exDb).2.games) ∧
    ((_update_scores_by_event_id 7 9 (some 3) (some 4) "final" [exG9]).2[0]? ≠ some exG9 ↔
      idWriteCond 9 (some 3) (some 4) "final" exG9) :=
  ⟨(C3_refresh_scores_change_detection 7 8 1 exFeed exDb).2.2
      (by decide) (by decide) (by decide),
   (C3_refresh_scores_change_detection 7 8 1 exFeed exDb).1 9 (some 3) (some 4)
      "final" [exG9] 0 exG9 (by decide)⟩

/-! ## Scheduler (`backend/utils/scheduler.py`)

State: `locks` models the PostgreSQL advisory-lock table shared by all
instances (key ↦ owning session); `runs` models `scheduler_runs`
(`job_name ↦ last_at`); `dom` is an opaque domain-database version acted
on by the job runners; `log` collects the structured log calls (the
`duration_ms`/timestamp fields of the log records are not modelled).
Runners and gate predicates are `Except`-valued to model Python
exceptions.  `hash` is passed in as the process's string-hash function:
CPython salts `hash(str)` with a per-process key (`PYTHONHASHSEED`), so
two separate processes generally disagree on it. -/

inductive LogEntry where
  | runOk (job : String)
  | runFailed (job : String) (err : String)
  | loopError (err : String)
deriving DecidableEq

/-- The job name a log entry is attributed to (none for loop-level errors). -/
def entryJob : LogEntry → Option String
  | .runOk j => some j
  | .runFailed j _ => some j
  | .loopError _ => none

@[ext]
structure SchedState where
  locks : Int → Option Nat
  runs : String → Option Int
  dom : Nat
  log : List LogEntry

/-- Job runner: returns a new domain state and a result, or raises. -/
def JobFn : Type := Nat → Except String (Nat × Nat)

/-- Gate predicate: queries the domain state, or raises. -/
def GateFn : Type := Nat → Except String Bool

/-- `_job_key`: `abs(hash(job_name)) % (2**31)` with the process's salted
string hash `h`. -/
def _job_key (h : String → Int) (job_name : String) : Int :=
  (((h job_name).natAbs % (2 ^ 31) : Nat) : Int)

/-- `pg_try_advisory_lock` semantics for session `sid`: succeeds when the
key is free (taking it) or already owned by this session (re-entrant; the
hold count is not modelled because the modelled runs never re-acquire). -/
def _advisory_lock (locks : Int → Option Nat) (sid : Nat) (key : Int) :
    Bool × (Int → Option Nat) :=
  match locks key with
  | none => (true, fun k => if k = key then some sid else locks k)
  | some o => (decide (o = sid), locks)

/-- `pg_advisory_unlock`: releases only a lock this session owns. -/
def _advisory_unlock (locks : Int → Option Nat) (sid : Nat) (key : Int) :
    Int → Option Nat :=
  if locks key = some sid then fun k => if k = key then none else locks k
  else locks

/-- `_touch_last_run`: upsert of `scheduler_runs.last_at = now()`. -/
def _touch_last_run (job : String) (now : Int) (runs : String → Option Int) :
    String → Option Int :=
  fun j => if j = job then some now else runs j

def unlockSt (sid : Nat) (key : Int) (st : SchedState) : SchedState :=
  { st with locks := _advisory_unlock st.locks sid key }

/-- `_maybe_run`: skip when not due; try the advisory lock and return
silently on failure; otherwise evaluate the optional gate (an exception
there propagates to the caller after the `finally` releases the lock),
run the job, record the ledger and log on success, log `run failed` and
swallow the exception on a runner error; the lock is always released. -/
def _maybe_run (h : String → Int) (sid : Nat) (now : Int) (st : SchedState)
    (job_name : String) (due : Bool) (predicate : Option GateFn)
    (run_fn : JobFn) : Except (SchedState × String) SchedState :=
  if !due then .ok st
  else
    let lock_key := _job_key h job_name
    let acq := _advisory_lock st.locks sid lock_key
    let st1 : SchedState := { st with locks := acq.2 }
    if !acq.1 then .ok st1
    else
      let runPart : SchedState → Except (SchedState × String) SchedState := fun s =>
        match run_fn s.dom with
        | .ok r =>
          let s2 := { s with dom := r.1,
                             runs := _touch_last_run job_name now s.runs,
                             log := s.log ++ [.runOk job_name] }
          .ok (unlockSt sid lock_key s2)
        | .error e =>
          .ok (unlockSt sid lock_key
            { s with log := s.log ++ [.runFailed job_name e] })
      match predicate with
      | some p =>
        match p st1.dom with
        | .error e => .error (unlockSt sid lock_key st1, e)
        | .ok false => .ok (unlockSt sid lock_key st1)
        | .ok true => runPart st1
      | none => runPart st1

/-- `_start_of_local_week_sun` on wall seconds (Sunday 00:00 local). -/
def _start_of_local_week_sun (wl : Int) : Int :=
  (dayOfSec wl - (weekdayMon0 (dayOfSec wl) + 1) % 7) * 86400

def _local_monday_start (wl : Int) : Int := _start_of_local_week_sun wl + 86400

def _local_tuesday_start (wl : Int) : Int :=
  _start_of_local_week_sun wl + 2 * 86400

/-- Due-condition of the `kickoff_sync` block: local hour has reached the
configured hour, and there is no recorded run whose Pacific date is
today's local date. -/
def kickoff_sync_due (kickoff_sync_hour wl : Int) (last : Option Int) : Bool :=
  decide (localHourOfWall wl ≥ kickoff_sync_hour) &&
    match last with
    | none => true
    | some t => decide (localDayPT t ≠ dayOfSec wl)

/-- Due-condition of the `score_sync` block (poll interval elapsed). -/
def score_sync_due (live_poll_seconds now : Int) (last : Option Int) : Bool :=
  match last with
  | none => true
  | some t => decide (now - t ≥ live_poll_seconds)

/-- Due-condition of the `email_sun` block; the `last_sun.astimezone(PST) <
gate` comparison of aware datetimes compares instants, so the recorded
instant is compared with the gate wall time converted to UTC. -/
def email_sun_due (wl : Int) (last : Option Int) : Bool :=
  decide (weekdayMon0 (dayOfSec wl) = 6) && decide (localHourOfWall wl ≥ 18) &&
    match last with
    | none => true
    | some t => decide (t < wallToUtcPT (_start_of_local_week_sun wl))

def email_mon_due (wl : Int) (last : Option Int) : Bool :=
  decide (weekdayMon0 (dayOfSec wl) = 0) && decide (localHourOfWall wl ≥ 18) &&
    match last with
    | none => true
    | some t => decide (t < wallToUtcPT (_local_monday_start wl))

def email_tue_due (tue_warning_hour wl : Int) (last : Option Int) : Bool :=
  decide (weekdayMon0 (dayOfSec wl) = 1) &&
    decide (localHourOfWall wl ≥ tue_warning_hour) &&
    match last with
    | none => true
    | some t => decide (t < wallToUtcPT (_local_tuesday_start wl))

def kickoff_block (h : String → Int) (sid : Nat) (now : Int)
    (kickoff_sync_hour : Int) (run_kickoff : JobFn) (st : SchedState) :
    Except (SchedState × String) SchedState :=
  _maybe_run h sid now st "kickoff_sync"
    (kickoff_sync_due kickoff_sync_hour (toWallPT now) (st.runs "kickoff_sync"))
    none run_kickoff

def score_block (h : String → Int) (sid : Nat) (now : Int)
    (live_poll_seconds : Int) (run_poll : JobFn) (pred_live : GateFn)
    (st : SchedState) : Except (SchedState × String) SchedState :=
  _maybe_run h sid now st "score_sync"
    (score_sync_due live_poll_seconds now (st.runs "score_sync"))
    (some pred_live) run_poll

def sun_block (h : String → Int) (sid : Nat) (now : Int) (run_sun : JobFn)
    (pred_sun : GateFn) (st : SchedState) :
    Except (SchedState × String) SchedState :=
  _maybe_run h sid now st "email_sun"
    (email_sun_due (toWallPT now) (st.runs "email_sun")) (some pred_sun) run_sun

def mon_block (h : String → Int) (sid : Nat) (now : Int) (run_mon : JobFn)
    (pred_mon : GateFn) (st : SchedState) :
    Except (SchedState × String) SchedState :=
  _maybe_run h sid now st "email_mon"
    (email_mon_due (toWallPT now) (st.runs "email_mon")) (some pred_mon) run_mon

def tue_block (h : String → Int) (sid : Nat) (now : Int)
    (tue_warning_hour : Int) (run_tue : JobFn) (pred_tue : GateFn)
    (st : SchedState) : Except (SchedState × String) SchedState :=
  _maybe_run h sid now st "email_tue_warn"
    (email_tue_due tue_warning_hour (toWallPT now) (st.runs "email_tue_warn"))
    (some pred_tue) run_tue

/-- One iteration of `_coordinator_loop`'s body: evaluate the five job
blocks in order inside the loop-level `try`; an exception escaping a block
(only a gate-check can raise out of `_maybe_run`) aborts the remaining
blocks of this tick and is logged as a loop error. -/
def _coordinator_tick (h : String → Int) (sid : Nat) (now : Int)
    (kickoff_sync_hour live_poll_seconds tue_warning_hour : Int)
    (run_kickoff run_poll run_sun run_mon run_tue : JobFn)
    (pred_live pred_sun pred_mon pred_tue : GateFn)
    (st : SchedState) : SchedState :=
  let body : Except (SchedState × String) SchedState := do
    let st ← kickoff_block h sid now kickoff_sync_hour run_kickoff st
    let st ← score_block h sid now live_poll_seconds run_poll pred_live st
    let st ← sun_block h sid now run_sun pred_sun st
    let st ← mon_block h sid now run_mon pred_mon st
    let st ← tue_block h sid now tue_warning_hour run_tue pred_tue st
    return st
  match body with
  | .ok s => s
  | .error (s, e) => { s with log := s.log ++ [.loopError e] }

/-- A tick's inputs when modelling a sequence of heartbeats: the wall-clock
instant and the (possibly failing) runner/gate behaviours of that tick. -/
structure TickInput where
  now : Int
  run_kickoff : JobFn
  run_poll : JobFn
  run_sun : JobFn
  run_mon : JobFn
  run_tue : JobFn
  pred_live : GateFn
  pred_sun : GateFn
  pred_mon : GateFn
  pred_tue : GateFn

/-- A run of consecutive coordinator ticks. -/
def run_ticks (h : String → Int) (sid : Nat)
    (kickoff_sync_hour live_poll_seconds tue_warning_hour : Int)
    (ts : List TickInput) (st : SchedState) : SchedState :=
  ts.foldl (fun st t =>
    _coordinator_tick h sid t.now kickoff_sync_hour live_poll_seconds
      tue_warning_hour t.run_kickoff t.run_poll t.run_sun t.run_mon t.run_tue
      t.pred_live t.pred_sun t.pred_mon t.pred_tue st) st

/-! ## Scheduler fixtures -/

def st0 : SchedState where
  locks := fun _ => none
  runs := fun _ => none
  dom := 0
  log := []

def okJob : JobFn := fun d => .ok (d + 1, 0)
def throwGate : GateFn := fun _ => .error "boom"
def trueGate : GateFn := fun _ => .ok true
def falseGate : GateFn := fun _ => .ok false

/-- Two modelled per-process string hashes: CPython's salted `hash(str)`
evaluated in two different processes. -/
def hashA : String → Int := fun _ => 17

def hashB : String → Int := fun _ => 23

/-- Sunday 2025-10-12 18:00 PDT as a Unix instant. -/
def nowSun : Int := 1760317200

/-- State whose ledger says kickoff_sync already ran earlier the same
local day (2025-10-12 03:00 PDT). -/
def st6 : SchedState where
  locks := fun _ => none
  runs := fun j => if j = "kickoff_sync" then some 1760288400 else none
  dom := 0
  log := []

/-! ## C9: `_job_key` is not deterministic across processes -/

/-- C9 (code bug, evaluated on the model): `_job_key` always lands in
`[0, 2^31)`, but it is a function of the process's salted string hash, so
two processes with different salts derive different advisory-lock keys for
the same job name — the docstring's promised stability across instances
fails. -/
theorem C9_job_key_not_stable :
    (∀ (h : String → Int) (s : String),
      0 ≤ _job_key h s ∧ _job_key h s < 2 ^ 31) ∧
    _job_key hashA "kickoff_sync" ≠ _job_key hashB "kickoff_sync" := by
  constructor
  · intro h s
    unfold _job_key
    constructor
    · exact Int.natCast_nonneg _
    · have hlt : (h s).natAbs % 2 ^ 31 < 2 ^ 31 :=
        Nat.mod_lt _ (by norm_num)
      exact_mod_cast hlt
  · decide

/-! ## C1: single-flight mutual exclusion across instances -/

/-- The lock table after instance 1 (hash salt A) acquired its key for
`kickoff_sync`. -/
def locksHeldByA : Int → Option Nat :=
  (_advisory_lock st0.locks 1 (_job_key hashA "kickoff_sync")).2

/-- C1 (code bug, evaluated on the model): two concurrently running
coordinator instances attempt the `kickoff_sync` lock; because each
process derives its own `_job_key` from its salted string hash, the keys
differ, instance 1's acquisition succeeds — and while instance 1 still
holds its lock, instance 2's entire `_maybe_run` also succeeds: it runs
the job, writes the ledger and logs `run ok`, so both instances execute
the job rather than exactly one. -/
theorem C1_single_flight_defeated_by_hash :
    _job_key hashA "kickoff_sync" ≠ _job_key hashB "kickoff_sync" ∧
    (_advisory_lock st0.locks 1 (_job_key hashA "kickoff_sync")).1 = true ∧
    ∃ s : SchedState,
      _maybe_run hashB 2 200 { st0 with locks := locksHeldByA }
          "kickoff_sync" true none okJob = .ok s ∧
      s.log = [.runOk "kickoff_sync"] ∧
      s.runs "kickoff_sync" = some 200 ∧
      s.locks (_job_key hashA "kickoff_sync") = some 1 := by
  refine ⟨by decide, by decide, ⟨_, rfl, ?_, ?_, ?_⟩⟩ <;> decide

/-! ## `_maybe_run` behaviour lemmas -/

theorem unlock_acquired (st : SchedState) (sid : Nat) (key : Int)
    (hfree : st.locks key = none) :
    _advisory_unlock (fun k => if k = key then some sid else st.locks k) sid key
      = st.locks := by
  unfold _advisory_unlock
  rw [if_pos (by simp)]
  funext k
  by_cases hk : k = key
  · simp [hk, hfree]
  · simp [hk]

theorem maybe_run_not_due (h : String → Int) (sid : Nat) (now : Int)
    (st : SchedState) (job : String) (p : Option GateFn) (run_fn : JobFn) :
    _maybe_run h sid now st job false p run_fn = .ok st := rfl

theorem maybe_run_lock_busy (h : String → Int) (sid : Nat) (now : Int)
    (st : SchedState) (job : String) (p : Option GateFn) (run_fn : JobFn)
    (o : Nat) (hlock : st.locks (_job_key h job) = some o) (hne : o ≠ sid) :
    _maybe_run h sid now st job true p run_fn = .ok st := by
  have hd : decide (o = sid) = false := decide_eq_false hne
  simp [_maybe_run, _advisory_lock, hlock, hd]

theorem maybe_run_gate_error (h : String → Int) (sid : Nat) (now : Int)
    (st : SchedState) (job : String) (p : GateFn) (run_fn : JobFn) (e : String)
    (hfree : st.locks (_job_key h job) = none)
    (hp : p st.dom = .error e) :
    _maybe_run h sid now st job true (some p) run_fn = .error (st, e) := by
  simp [_maybe_run, _advisory_lock, hfree, hp, unlockSt,
    unlock_acquired st sid (_job_key h job) hfree]

theorem maybe_run_gate_false (h : String → Int) (sid : Nat) (now : Int)
    (st : SchedState) (job : String) (p : GateFn) (run_fn : JobFn)
    (hfree : st.locks (_job_key h job) = none)
    (hp : p st.dom = .ok false) :
    _maybe_run h sid now st job true (some p) run_fn = .ok st := by
  simp [_maybe_run, _advisory_lock, hfree, hp, unlockSt,
    unlock_acquired st sid (_job_key h job) hfree]

theorem maybe_run_run_error (h : String → Int) (sid : Nat) (now : Int)
    (st : SchedState) (job : String) (p : Option GateFn) (run_fn : JobFn)
    (e : String)
    (hfree : st.locks (_job_key h job) = none)
    (hp : p = none ∨ ∃ pf, p = some pf ∧ pf st.dom = .ok true)
    (hrun : run_fn st.dom = .error e) :
    _maybe_run h sid now st job true p run_fn =
      .ok { st with log := st.log ++ [.runFailed job e] } := by
  rcases hp with rfl | ⟨pf, rfl, hpf⟩
  · simp [_maybe_run, _advisory_lock, hfree, hrun, unlockSt,
      unlock_acquired st sid (_job_key h job) hfree]
  · simp [_maybe_run, _advisory_lock, hfree, hpf, hrun, unlockSt,
      unlock_acquired st sid (_job_key h job) hfree]

theorem maybe_run_success (h : String → Int) (sid : Nat) (now : Int)
    (st : SchedState) (job : String) (p : Option GateFn) (run_fn : JobFn)
    (d r : Nat)
    (hfree : st.locks (_job_key h job) = none)
    (hp : p = none ∨ ∃ pf, p = some pf ∧ pf st.dom = .ok true)
    (hrun : run_fn st.dom = .ok (d, r)) :
    _maybe_run h sid now st job true p run_fn =
      .ok { st with dom := d, runs := _touch_last_run job now st.runs,
                    log := st.log ++ [.runOk job] } := by
  rcases hp with rfl | ⟨pf, rfl, hpf⟩
  · simp [_maybe_run, _advisory_lock, hfree, hrun, unlockSt,
      unlock_acquired st sid (_job_key h job) hfree]
  · simp [_maybe_run, _advisory_lock, hfree, hpf, hrun, unlockSt,
      unlock_acquired st sid (_job_key h job) hfree]

/-! ## C6: failure isolation -/

/-- C6 counterexample: on a Sunday-evening tick, `score_sync` is due and
its gate (`_any_live_games`) raises; `email_sun` is due and (as the
contrast tick with a non-raising gate shows) would run — but the gate
exception escapes `_maybe_run`, is logged only as a loop error without the
job name, and aborts the tick before `email_sun` is ever evaluated. -/
theorem C6_gate_exception_counterexample :
    (_coordinator_tick hashA 1 nowSun 4 300 17 okJob okJob okJob okJob okJob
      throwGate trueGate trueGate trueGate st6).log = [.loopError "boom"] ∧
    (_coordinator_tick hashA 1 nowSun 4 300 17 okJob okJob okJob okJob okJob
      throwGate trueGate trueGate trueGate st6).runs "email_sun" = none ∧
    email_sun_due (toWallPT nowSun) (st6.runs "email_sun") = true ∧
    (_coordinator_tick hashA 1 nowSun 4 300 17 okJob okJob okJob okJob okJob
      falseGate trueGate trueGate trueGate st6).log = [.runOk "email_sun"] ∧
    (_coordinator_tick hashA 1 nowSun 4 300 17 okJob okJob okJob okJob okJob
      falseGate trueGate trueGate trueGate st6).runs "email_sun" = some nowSun := by
  refine ⟨by decide, by decide, by decide, by decide, by decide⟩

/-! Due-condition helper lemmas. -/

theorem kickoff_due_false_hour {H wl : Int} (hh : localHourOfWall wl < H)
    (last : Option Int) : kickoff_sync_due H wl last = false := by
  unfold kickoff_sync_due
  rw [decide_eq_false (not_le.mpr hh)]
  exact Bool.false_and _

theorem email_sun_due_false_weekday {wl : Int}
    (hw : weekdayMon0 (dayOfSec wl) ≠ 6) (last : Option Int) :
    email_sun_due wl last = false := by
  unfold email_sun_due
  rw [decide_eq_false hw]
  simp

theorem email_mon_due_false_weekday {wl : Int}
    (hw : weekdayMon0 (dayOfSec wl) ≠ 0) (last : Option Int) :
    email_mon_due wl last = false := by
  unfold email_mon_due
  rw [decide_eq_false hw]
  simp

theorem email_tue_due_false_weekday {tueH wl : Int}
    (hw : weekdayMon0 (dayOfSec wl) ≠ 1) (last : Option Int) :
    email_tue_due tueH wl last = false := by
  unfold email_tue_due
  rw [decide_eq_false hw]
  simp

theorem except_bind_ok {α β ε : Type} (a : α) (f : α → Except ε β) :
    ((Except.ok a : Except ε α) >>= f) = f a := rfl

theorem except_bind_error {α β ε : Type} (e : ε) (f : α → Except ε β) :
    ((Except.error e : Except ε α) >>= f) = Except.error e := rfl

theorem except_pure_eq_ok {α ε : Type} (a : α) :
    (pure a : Except ε α) = Except.ok a := rfl

/-- C6 (amended): an exception inside a job's *runner* is confined to that
job — `_maybe_run` logs `run failed` with the job name and error detail
(elapsed time is also logged; not modelled), releases the advisory lock
and leaves the ledger untouched, and the coordinator still evaluates the
remaining jobs of the tick (part 2 exercises this end to end).  An
exception inside a job's *gate-check*, however, escapes `_maybe_run`
(after the `finally` releases the lock, with ledger untouched): it aborts
the remaining blocks of the tick and is logged only by the loop-level
handler, without the job name (part 3's conclusion does not depend on the
later jobs' runners, so they are provably never evaluated). -/
theorem C6_failure_isolation (h : String → Int) (sid : Nat) (now : Int)
    (kickoff_sync_hour live_poll_seconds tue_warning_hour : Int)
    (run_kickoff run_poll run_sun run_mon run_tue : JobFn)
    (pred_live pred_sun pred_mon pred_tue : GateFn)
    (st : SchedState) (e : String) (d r : Nat) :
    (∀ (job : String) (run_fn : JobFn),
      st.locks (_job_key h job) = none → run_fn st.dom = .error e →
      _maybe_run h sid now st job true none run_fn =
        .ok { st with log := st.log ++ [.runFailed job e] }) ∧
    (localHourOfWall (toWallPT now) ≥ kickoff_sync_hour →
      st.runs "kickoff_sync" = none → st.runs "score_sync" = none →
      (∀ k, st.locks k = none) →
      run_kickoff st.dom = .error e →
      pred_live st.dom = .ok true → run_poll st.dom = .ok (d, r) →
      weekdayMon0 (dayOfSec (toWallPT now)) ≠ 6 →
      weekdayMon0 (dayOfSec (toWallPT now)) ≠ 0 →
      weekdayMon0 (dayOfSec (toWallPT now)) ≠ 1 →
      _coordinator_tick h sid now kickoff_sync_hour live_poll_seconds
        tue_warning_hour run_kickoff run_poll run_sun run_mon run_tue
        pred_live pred_sun pred_mon pred_tue st =
        { st with dom := d,
                  runs := _touch_last_run "score_sync" now st.runs,
                  log := st.log ++ [.runFailed "kickoff_sync" e,
                                    .runOk "score_sync"] }) ∧
    (localHourOfWall (toWallPT now) < kickoff_sync_hour →
      st.runs "score_sync" = none →
      st.locks (_job_key h "score_sync") = none →
      pred_live st.dom = .error e →
      _coordinator_tick h sid now kickoff_sync_hour live_poll_seconds
        tue_warning_hour run_kickoff run_poll run_sun run_mon run_tue
        pred_live pred_sun pred_mon pred_tue st =
        { st with log := st.log ++ [.loopError e] }) := by
  refine ⟨?_, ?_, ?_⟩
  · intro job run_fn hfree hrun
    exact maybe_run_run_error h sid now st job none run_fn e hfree (Or.inl rfl) hrun
  · intro hh hkr hsr hlock hrk hpl hrp hw6 hw0 hw1
    unfold _coordinator_tick
    have hdue : kickoff_sync_due kickoff_sync_hour (toWallPT now)
        (st.runs "kickoff_sync") = true := by
      rw [hkr]
      unfold kickoff_sync_due
      simp [hh]
    have hkb : kickoff_block h sid now kickoff_sync_hour run_kickoff st =
        .ok { st with log := st.log ++ [.runFailed "kickoff_sync" e] } := by
      unfold kickoff_block
      rw [hdue]
      exact maybe_run_run_error h sid now st "kickoff_sync" none run_kickoff e
        (hlock _) (Or.inl rfl) hrk
    rw [hkb, except_bind_ok]
    set stA : SchedState := { st with log := st.log ++ [.runFailed "kickoff_sync" e] }
      with hstA
    have hsb : score_block h sid now live_poll_seconds run_poll pred_live stA =
        .ok { stA with dom := d,
                       runs := _touch_last_run "score_sync" now stA.runs,
                       log := stA.log ++ [.runOk "score_sync"] } := by
      unfold score_block
      have hdue2 : score_sync_due live_poll_seconds now (stA.runs "score_sync") = true := by
        have : stA.runs "score_sync" = none := hsr
        rw [this]
        rfl
      rw [hdue2]
      exact maybe_run_success h sid now stA "score_sync" (some pred_live) run_poll d r
        (hlock _) (Or.inr ⟨pred_live, rfl, hpl⟩) hrp
    rw [hsb, except_bind_ok]
    have h3 : ∀ s : SchedState, sun_block h sid now run_sun pred_sun s = .ok s := by
      intro s
      unfold sun_block
      rw [email_sun_due_false_weekday hw6]
      exact maybe_run_not_due ..
    have h4 : ∀ s : SchedState, mon_block h sid now run_mon pred_mon s = .ok s := by
      intro s
      unfold mon_block
      rw [email_mon_due_false_weekday hw0]
      exact maybe_run_not_due ..
    have h5 : ∀ s : SchedState,
        tue_block h sid now tue_warning_hour run_tue pred_tue s = .ok s := by
      intro s
      unfold tue_block
      rw [email_tue_due_false_weekday hw1]
      exact maybe_run_not_due ..
    rw [h3, except_bind_ok, h4, except_bind_ok, h5, except_bind_ok]
    simp only [except_pure_eq_ok]
    simp [hstA, List.append_assoc]
  · intro hh hsr hfree hpl
    unfold _coordinator_tick
    have hkb : kickoff_block h sid now kickoff_sync_hour run_kickoff st = .ok st := by
      unfold kickoff_block
      rw [kickoff_due_false_hour hh]
      exact maybe_run_not_due ..
    rw [hkb, except_bind_ok]
    have hsb : score_block h sid now live_poll_seconds run_poll pred_live st =
        .error (st, e) := by
      unfold score_block
      have hdue2 : score_sync_due live_poll_seconds now (st.runs "score_sync") = true := by
        rw [hsr]
        rfl
      rw [hdue2]
      exact maybe_run_gate_error h sid now st "score_sync" pred_live run_poll e hfree hpl
    rw [hsb, except_bind_error]

/-- A kickoff runner that raises (e.g. the external fetch fails). -/
def failKick : JobFn := fun _ => .error "net"

/-- Thursday 2025-10-16 18:00 PDT as a Unix instant. -/
def nowThu : Int := 1760662800

/-- Witness for C6 (amended), both tick-level parts at concrete inputs. -/
theorem C6_failure_isolation_witness :
    _coordinator_tick hashA 1 nowThu 4 300 17 failKick okJob okJob okJob okJob
      trueGate trueGate trueGate trueGate st0 =
      { st0 with dom := 1,
                 runs := _touch_last_run "score_sync" nowThu st0.runs,
                 log := st0.log ++ [.runFailed "kickoff_sync" "net",
                                    .runOk "score_sync"] } ∧
    _coordinator_tick hashA 1 nowSun 20 300 17 okJob okJob okJob okJob okJob
      throwGate trueGate trueGate trueGate st0 =
      { st0 with log := st0.log ++ [.loopError "boom"] } :=
  ⟨(C6_failure_isolation hashA 1 nowThu 4 300 17 failKick okJob okJob okJob okJob
      trueGate trueGate trueGate trueGate st0 "net" 1 0).2.1
      (by decide) rfl rfl (fun _ => rfl) rfl rfl rfl (by decide) (by decide)
      (by decide),
   (C6_failure_isolation hashA 1 nowSun 20 300 17 okJob okJob okJob okJob okJob
      throwGate trueGate trueGate trueGate st0 "boom" 0 0).2.2
      (by decide) rfl rfl rfl⟩

/-! ## C7: kickoff sync at most once per local day -/

/-- Number of successful `kickoff_sync` runs recorded in a log. -/
def kickoffOkCount (log : List LogEntry) : Nat :=
  log.countP (fun x => decide (x = LogEntry.runOk "kickoff_sync"))

/-- A successful `kickoff_sync` run is recorded for Pacific-local day `D`. -/
def ranKickoffOn (D : Int) (runs : String → Option Int) : Prop :=
  ∃ t, runs "kickoff_sync" = some t ∧ localDayPT t = D

/-- Two consecutive ticks on the same Thursday; the kickoff runner raises
on the first and succeeds on the second. -/
def tickA : TickInput where
  now := nowThu
  run_kickoff := failKick
  run_poll := okJob
  run_sun := okJob
  run_mon := okJob
  run_tue := okJob
  pred_live := falseGate
  pred_sun := trueGate
  pred_mon := trueGate
  pred_tue := trueGate

def tickB : TickInput where
  now := nowThu + 60
  run_kickoff := okJob
  run_poll := okJob
  run_sun := okJob
  run_mon := okJob
  run_tue := okJob
  pred_live := falseGate
  pred_sun := trueGate
  pred_mon := trueGate
  pred_tue := trueGate

/-- C7 counterexample: the job body *executes* twice within one local day.
On two same-Thursday ticks the runner raises on the first execution (run
failed is logged, the ledger is not touched), so the due-check is still
true on the second tick and the job executes again — the claim's "never
executes twice within one local day" only holds for *successful*
executions. -/
theorem C7_kickoff_twice_counterexample :
    (run_ticks hashA 1 4 300 17 [tickA, tickB] st0).log =
      [.runFailed "kickoff_sync" "net", .runOk "kickoff_sync"] ∧
    localDayPT tickA.now = localDayPT tickB.now := by
  refine ⟨by decide, by decide⟩

theorem kickoff_sync_due_iff (H wl : Int) (last : Option Int) :
    kickoff_sync_due H wl last = true ↔
      (H ≤ localHourOfWall wl ∧
       ¬ ∃ t, last = some t ∧ localDayPT t = dayOfSec wl) := by
  cases last with
  | none => simp [kickoff_sync_due, ge_iff_le]
  | some t => simp [kickoff_sync_due, ge_iff_le]

theorem kickoff_due_after_touch (H wl now' : Int) (runs : String → Option Int)
    (hd : localDayPT now' = dayOfSec wl) :
    kickoff_sync_due H wl
      (_touch_last_run "kickoff_sync" now' runs "kickoff_sync") = false := by
  have ht : _touch_last_run "kickoff_sync" now' runs "kickoff_sync" = some now' := by
    simp [_touch_last_run]
  rw [ht]
  unfold kickoff_sync_due
  simp [hd]

/-- Observables of the kickoff job preserved by another job's block. -/
def kobs (st s : SchedState) : Prop :=
  s.runs "kickoff_sync" = st.runs "kickoff_sync" ∧
  kickoffOkCount s.log = kickoffOkCount st.log ∧ ∀ k, s.locks k = none

theorem kobs_trans {st s1 s2 : SchedState} (h1 : kobs st s1) (h2 : kobs s1 s2) :
    kobs st s2 :=
  ⟨h2.1.trans h1.1, h2.2.1.trans h1.2.1, h2.2.2⟩

theorem maybe_run_kickoff_obs (h : String → Int) (sid : Nat) (now : Int)
    (st : SchedState) (job : String) (due : Bool) (p : Option GateFn)
    (run_fn : JobFn) (hjob : job ≠ "kickoff_sync")
    (hall : ∀ k, st.locks k = none) :
    (∀ s, _maybe_run h sid now st job due p run_fn = .ok s → kobs st s) ∧
    (∀ s e, _maybe_run h sid now st job due p run_fn = .error (s, e) →
      kobs st s) := by
  cases due with
  | false =>
    rw [maybe_run_not_due]
    constructor
    · intro s hs
      cases hs
      exact ⟨rfl, rfl, hall⟩
    · intro s e hs
      cases hs
  | true =>
    have hfree := hall (_job_key h job)
    have runCase : ∀ hp : p = none ∨ ∃ pf, p = some pf ∧ pf st.dom = .ok true,
        (∀ s, _maybe_run h sid now st job true p run_fn = .ok s → kobs st s) ∧
        (∀ s e, _maybe_run h sid now st job true p run_fn = .error (s, e) →
          kobs st s) := by
      intro hp
      cases hrun : run_fn st.dom with
      | ok pr =>
        obtain ⟨d, r⟩ := pr
        rw [maybe_run_success h sid now st job p run_fn d r hfree hp hrun]
        constructor
        · intro s hs
          cases hs
          refine ⟨?_, ?_, hall⟩
          · simp [_touch_last_run, Ne.symm hjob]
          · simp [kickoffOkCount, List.countP_append, hjob]
        · intro s e hs
          cases hs
      | error e' =>
        rw [maybe_run_run_error h sid now st job p run_fn e' hfree hp hrun]
        constructor
        · intro s hs
          cases hs
          refine ⟨rfl, ?_, hall⟩
          simp [kickoffOkCount, List.countP_append]
        · intro s e hs
          cases hs
    rcases p with _ | pf
    · exact runCase (Or.inl rfl)
    · cases hpf : pf st.dom with
      | error e' =>
        rw [maybe_run_gate_error h sid now st job pf run_fn e' hfree hpf]
        constructor
        · intro s hs
          cases hs
        · intro s e hs
          cases hs
          exact ⟨rfl, rfl, hall⟩
      | ok b =>
        cases b with
        | false =>
          rw [maybe_run_gate_false h sid now st job pf run_fn hfree hpf]
          constructor
          · intro s hs
            cases hs
            exact ⟨rfl, rfl, hall⟩
          · intro s e hs
            cases hs
        | true => exact runCase (Or.inr ⟨pf, rfl, hpf⟩)

theorem score_block_obs (h : String → Int) (sid : Nat) (now lp : Int)
    (rp : JobFn) (pl : GateFn) (st : SchedState)
    (hall : ∀ k, st.locks k = none) :
    (∀ s, score_block h sid now lp rp pl st = .ok s → kobs st s) ∧
    (∀ s e, score_block h sid now lp rp pl st = .error (s, e) → kobs st s) := by
  unfold score_block
  exact maybe_run_kickoff_obs h sid now st "score_sync" _ _ _ (by decide) hall

theorem sun_block_obs (h : String → Int) (sid : Nat) (now : Int)
    (rs : JobFn) (ps : GateFn) (st : SchedState)
    (hall : ∀ k, st.locks k = none) :
    (∀ s, sun_block h sid now rs ps st = .ok s → kobs st s) ∧
    (∀ s e, sun_block h sid now rs ps st = .error (s, e) → kobs st s) := by
  unfold sun_block
  exact maybe_run_kickoff_obs h sid now st "email_sun" _ _ _ (by decide) hall

theorem mon_block_obs (h : String → Int) (sid : Nat) (now : Int)
    (rm : JobFn) (pm : GateFn) (st : SchedState)
    (hall : ∀ k, st.locks k = none) :
    (∀ s, mon_block h sid now rm pm st = .ok s → kobs st s) ∧
    (∀ s e, mon_block h sid now rm pm st = .error (s, e) → kobs st s) := by
  unfold mon_block
  exact maybe_run_kickoff_obs h sid now st "email_mon" _ _ _ (by decide) hall

theorem tue_block_obs (h : String → Int) (sid : Nat) (now tueH : Int)
    (rt : JobFn) (pt : GateFn) (st : SchedState)
    (hall : ∀ k, st.locks k = none) :
    (∀ s, tue_block h sid now tueH rt pt st = .ok s → kobs st s) ∧
    (∀ s e, tue_block h sid now tueH rt pt st = .error (s, e) → kobs st s) := by
  unfold tue_block
  exact maybe_run_kickoff_obs h sid now st "email_tue_warn" _ _ _ (by decide) hall

theorem kickoff_block_spec (h : String → Int) (sid : Nat) (now H : Int)
    (rk : JobFn) (st : SchedState) (hall : ∀ k, st.locks k = none) :
    ∃ s, kickoff_block h sid now H rk st = .ok s ∧
      (kobs st s ∨
       (kickoff_sync_due H (toWallPT now) (st.runs "kickoff_sync") = true ∧
        s.runs "kickoff_sync" = some now ∧
        kickoffOkCount s.log = kickoffOkCount st.log + 1 ∧
        ∀ k, s.locks k = none)) := by
  unfold kickoff_block
  cases hdue : kickoff_sync_due H (toWallPT now) (st.runs "kickoff_sync") with
  | false =>
    rw [maybe_run_not_due]
    exact ⟨st, rfl, Or.inl ⟨rfl, rfl, hall⟩⟩
  | true =>
    have hfree := hall (_job_key h "kickoff_sync")
    cases hrun : rk st.dom with
    | ok pr =>
      obtain ⟨d, r⟩ := pr
      rw [maybe_run_success h sid now st "kickoff_sync" none rk d r hfree
        (Or.inl rfl) hrun]
      refine ⟨_, rfl, Or.inr ⟨rfl, ?_, ?_, hall⟩⟩
      · simp [_touch_last_run]
      · simp [kickoffOkCount, List.countP_append]
    | error e =>
      rw [maybe_run_run_error h sid now st "kickoff_sync" none rk e hfree
        (Or.inl rfl) hrun]
      refine ⟨_, rfl, Or.inl ⟨rfl, ?_, hall⟩⟩
      simp [kickoffOkCount, List.countP_append]

/-- One tick as a function of a `TickInput`. -/
def tick1 (h : String → Int) (sid : Nat) (H lp tueH : Int) (st : SchedState)
    (t : TickInput) : SchedState :=
  _coordinator_tick h sid t.now H lp tueH t.run_kickoff t.run_poll t.run_sun
    t.run_mon t.run_tue t.pred_live t.pred_sun t.pred_mon t.pred_tue st

theorem kobs_loopError (st s : SchedState) (e : String) (hk : kobs st s) :
    kobs st { s with log := s.log ++ [LogEntry.loopError e] } := by
  refine ⟨hk.1, ?_, hk.2.2⟩
  rw [← hk.2.1]
  simp [kickoffOkCount, List.countP_append]

theorem tick_kickoff_spec (h : String → Int) (sid : Nat) (H lp tueH : Int)
    (st : SchedState) (t : TickInput) (hall : ∀ k, st.locks k = none) :
    kobs st (tick1 h sid H lp tueH st t) ∨
      (kickoff_sync_due H (toWallPT t.now) (st.runs "kickoff_sync") = true ∧
       (tick1 h sid H lp tueH st t).runs "kickoff_sync" = some t.now ∧
       kickoffOkCount (tick1 h sid H lp tueH st t).log =
         kickoffOkCount st.log + 1 ∧
       ∀ k, (tick1 h sid H lp tueH st t).locks k = none) := by
  unfold tick1 _coordinator_tick
  obtain ⟨s1, hkb, hdisj⟩ := kickoff_block_spec h sid t.now H t.run_kickoff st hall
  have hall1 : ∀ k, s1.locks k = none := by
    rcases hdisj with ⟨_, _, hl⟩ | ⟨_, _, _, hl⟩ <;> exact hl
  rw [hkb, except_bind_ok]
  have step : ∀ s2, kobs s1 s2 →
      kobs st s2 ∨
        (kickoff_sync_due H (toWallPT t.now) (st.runs "kickoff_sync") = true ∧
         s2.runs "kickoff_sync" = some t.now ∧
         kickoffOkCount s2.log = kickoffOkCount st.log + 1 ∧
         ∀ k, s2.locks k = none) := by
    intro s2 h2
    rcases hdisj with h1 | ⟨hdue, hr1, hc1, _⟩
    · exact Or.inl (kobs_trans h1 h2)
    · exact Or.inr ⟨hdue, h2.1.trans hr1, h2.2.1.trans hc1, h2.2.2⟩
  cases hsb : score_block h sid t.now lp t.run_poll t.pred_live s1 with
  | error pe =>
    obtain ⟨se, ee⟩ := pe
    rw [except_bind_error]
    exact step _ (kobs_loopError s1 se ee
      ((score_block_obs h sid t.now lp t.run_poll t.pred_live s1 hall1).2 se ee hsb))
  | ok s2 =>
    rw [except_bind_ok]
    have h12 := (score_block_obs h sid t.now lp t.run_poll t.pred_live s1 hall1).1 s2 hsb
    cases hsu : sun_block h sid t.now t.run_sun t.pred_sun s2 with
    | error pe =>
      obtain ⟨se, ee⟩ := pe
      rw [except_bind_error]
      exact step _ (kobs_trans h12 (kobs_loopError s2 se ee
        ((sun_block_obs h sid t.now t.run_sun t.pred_sun s2 h12.2.2).2 se ee hsu)))
    | ok s3 =>
      rw [except_bind_ok]
      have h23 := (sun_block_obs h sid t.now t.run_sun t.pred_sun s2 h12.2.2).1 s3 hsu
      cases hmo : mon_block h sid t.now t.run_mon t.pred_mon s3 with
      | error pe =>
        obtain ⟨se, ee⟩ := pe
        rw [except_bind_error]
        exact step _ (kobs_trans h12 (kobs_trans h23 (kobs_loopError s3 se ee
          ((mon_block_obs h sid t.now t.run_mon t.pred_mon s3 h23.2.2).2 se ee hmo))))
      | ok s4 =>
        rw [except_bind_ok]
        have h34 := (mon_block_obs h sid t.now t.run_mon t.pred_mon s3 h23.2.2).1 s4 hmo
        cases htu : tue_block h sid t.now tueH t.run_tue t.pred_tue s4 with
        | error pe =>
          obtain ⟨se, ee⟩ := pe
          rw [except_bind_error]
          exact step _ (kobs_trans h12 (kobs_trans h23 (kobs_trans h34
            (kobs_loopError s4 se ee
              ((tue_block_obs h sid t.now tueH t.run_tue t.pred_tue s4 h34.2.2).2
                se ee htu)))))
        | ok s5 =>
          rw [except_bind_ok]
          have h45 := (tue_block_obs h sid t.now tueH t.run_tue t.pred_tue s4
            h34.2.2).1 s5 htu
          simp only [except_pure_eq_ok]
          exact step _ (kobs_trans h12 (kobs_trans h23 (kobs_trans h34 h45)))

theorem run_ticks_eq_foldl (h : String → Int) (sid : Nat) (H lp tueH : Int)
    (ts : List TickInput) (st : SchedState) :
    run_ticks h sid H lp tueH ts st = ts.foldl (tick1 h sid H lp tueH) st := rfl

theorem run_ticks_kickoff_bound (h : String → Int) (sid : Nat)
    (H lp tueH D : Int) :
    ∀ (ts : List TickInput) (st : SchedState),
      (∀ t ∈ ts, localDayPT t.now = D) → (∀ k, st.locks k = none) →
      ((¬ ranKickoffOn D st.runs →
         kickoffOkCount (run_ticks h sid H lp tueH ts st).log ≤
           kickoffOkCount st.log + 1) ∧
       (ranKickoffOn D st.runs →
         kickoffOkCount (run_ticks h sid H lp tueH ts st).log =
           kickoffOkCount st.log)) := by
  intro ts
  induction ts with
  | nil =>
    intro st _ _
    exact ⟨fun _ => Nat.le_succ _, fun _ => rfl⟩
  | cons t ts ih =>
    intro st hday hall
    have hD : localDayPT t.now = D := hday t (by simp)
    have hday' : ∀ t' ∈ ts, localDayPT t'.now = D := by
      intro t' ht'
      exact hday t' (by simp [ht'])
    have hrt : run_ticks h sid H lp tueH (t :: ts) st =
        run_ticks h sid H lp tueH ts (tick1 h sid H lp tueH st t) := rfl
    rw [hrt]
    rcases tick_kickoff_spec h sid H lp tueH st t hall with
      ⟨hruns, hcnt, hlk⟩ | ⟨hdue, hruns, hcnt, hlk⟩
    · obtain ⟨ihA, ihB⟩ := ih (tick1 h sid H lp tueH st t) hday' hlk
      constructor
      · intro hnot
        have hnot' : ¬ ranKickoffOn D (tick1 h sid H lp tueH st t).runs := by
          rintro ⟨t0, ht0, hd0⟩
          exact hnot ⟨t0, hruns ▸ ht0, hd0⟩
        calc kickoffOkCount (run_ticks h sid H lp tueH ts
                (tick1 h sid H lp tueH st t)).log
            ≤ kickoffOkCount (tick1 h sid H lp tueH st t).log + 1 := ihA hnot'
          _ = kickoffOkCount st.log + 1 := by rw [hcnt]
      · intro hran
        obtain ⟨t0, ht0, hd0⟩ := hran
        have hran' : ranKickoffOn D (tick1 h sid H lp tueH st t).runs :=
          ⟨t0, hruns.trans ht0, hd0⟩
        rw [ihB hran', hcnt]
    · obtain ⟨ihA, ihB⟩ := ih (tick1 h sid H lp tueH st t) hday' hlk
      have hran' : ranKickoffOn D (tick1 h sid H lp tueH st t).runs :=
        ⟨t.now, hruns, hD⟩
      have hnot : ¬ ranKickoffOn D st.runs := by
        have hiff := (kickoff_sync_due_iff H (toWallPT t.now)
          (st.runs "kickoff_sync")).mp hdue
        rintro ⟨t0, ht0, hd0⟩
        exact hiff.2 ⟨t0, ht0, hd0.trans hD.symm⟩
      constructor
      · intro _
        rw [ihB hran', hcnt]
      · intro hran
        exact absurd hran hnot

/-- C7 (amended): the due-check and ledger mechanics are as claimed — (1)
`kickoff_sync`'s due-check is true exactly when the Pacific-local hour has
reached the configured hour and no recorded run's timestamp falls on the
current local date, and (2) it is false immediately after
`_touch_last_run` records a run that local day.  But only *successful*
runs touch the ledger, so the claim's conclusion must be weakened from
"never executes twice within one local day" to: (3) across any sequence
of coordinator ticks on one local day (starting with no run recorded that
day and the advisory locks free), at most one *successful* `kickoff_sync`
run is added to the log; failed executions may repeat. -/
theorem C7_kickoff_once_per_day (h : String → Int) (sid : Nat)
    (H lp tueH D wl now' : Int) (last : Option Int)
    (runs : String → Option Int) (ts : List TickInput) (st : SchedState) :
    (kickoff_sync_due H wl last = true ↔
      (H ≤ localHourOfWall wl ∧
       ¬ ∃ t, last = some t ∧ localDayPT t = dayOfSec wl)) ∧
    (localDayPT now' = dayOfSec wl →
      kickoff_sync_due H wl
        (_touch_last_run "kickoff_sync" now' runs "kickoff_sync") = false) ∧
    ((∀ t ∈ ts, localDayPT t.now = D) → (∀ k, st.locks k = none) →
      ¬ ranKickoffOn D st.runs →
      kickoffOkCount (run_ticks h sid H lp tueH ts st).log ≤
        kickoffOkCount st.log + 1) :=
  ⟨kickoff_sync_due_iff H wl last,
   fun hd => kickoff_due_after_touch H wl now' runs hd,
   fun hday hall hnot =>
     (run_ticks_kickoff_bound h sid H lp tueH D ts st hday hall).1 hnot⟩

/-- Witness for C7 (amended) at concrete inputs: the two-tick Thursday
scenario of the counterexample indeed records at most one success. -/
theorem C7_kickoff_once_per_day_witness :
    kickoff_sync_due 4 (toWallPT nowThu)
      (_touch_last_run "kickoff_sync" nowThu st0.runs "kickoff_sync") = false ∧
    kickoffOkCount (run_ticks hashA 1 4 300 17 [tickA, tickB] st0).log ≤
      kickoffOkCount st0.log + 1 :=
  ⟨(C7_kickoff_once_per_day hashA 1 4 300 17 20377 (toWallPT nowThu) nowThu
      none st0.runs [tickA, tickB] st0).2.1 (by decide),
   (C7_kickoff_once_per_day hashA 1 4 300 17 20377 (toWallPT nowThu) nowThu
      none st0.runs [tickA, tickB] st0).2.2 (by decide) (fun _ => rfl)
      (fun hx => Option.noConfusion hx.choose_spec.1)⟩

end PigeonPool
